import Mathlib

/-!
# dbutil: the balance and share ledger of `src/database/mongodb.go`

A shallow embedding of the persistence layer (`src/database/mongodb.go`) and of the
request handlers that the properties below talk about (`src/handlers/userHandler.go`).

Modelling conventions.

* The `Users` collection is an ordered list of documents.  Every driver call
  (`FindOne`, `UpdateOne`, `InsertOne`, `DeleteOne`, `CountDocuments`) is one step of
  the store: it consumes one entry of a fault schedule (`faults n` is the failure, if
  any, of the `n`-th driver call: a timeout, a lost connection) and otherwise acts on
  the list.  Applied writes are also appended to `oplog`, the store's operation log.
* `float64` amounts are IEEE 754 binary64 values: NaN, the infinities, and the finite
  numbers; `+`, `-`, `*` round to nearest (ties to even), `<` is false on NaN, and
  `float64(q)` rounds the integer `q`.  Go `int` quantities are integers.
* `primitive.NewObjectID().Hex()` and `time.Now().String()` are inputs of the function
  that calls them; `bcrypt` is an input of the functions that call it.
-/

namespace Dbutil

/-! ## `float64` arithmetic -/

/-- A Go `float64` (IEEE 754 binary64): NaN, the two infinities, and the finite
numbers by their exact value.  The two zeros are one value (they compare equal and
no operation used here tells them apart) and so are all NaNs.  The values a program
holds are the results of `Float64.ofRat`; the type also has `fin q` for the other
rationals, and what is proved for every value holds for those of the program. -/
inductive Float64 where
  | nan
  | inf (negative : Bool)
  | fin (value : ℚ)
deriving DecidableEq

/-- The power `2 ^ e` as a rational. -/
def pow2 (e : Int) : ℚ :=
  if 0 ≤ e then ((2 ^ e.toNat : Nat) : ℚ) else 1 / ((2 ^ (-e).toNat : Nat) : ℚ)

/-- Rounding of a non-negative rational to the nearest integer, ties to even. -/
def roundTiesEven (x : ℚ) : Int :=
  let f := Rat.floor x
  let r := x - (f : ℚ)
  if r < 1 / 2 then f else if 1 / 2 < r then f + 1 else if f % 2 = 0 then f else f + 1

/-- The loop of `bitLength`, bounded by `fuel`. -/
def bitLengthLoop : Nat → Nat → Nat
  | 0, _ => 0
  | fuel + 1, n => if n < 2 then 0 else bitLengthLoop fuel (n / 2) + 1

/-- The integer logarithm: `2 ^ floorLog2 n ≤ n < 2 ^ (floorLog2 n + 1)` for `n > 0`. -/
def floorLog2 (n : Nat) : Nat := bitLengthLoop n n

/-- The exponent `e` with `2 ^ e ≤ a < 2 ^ (e + 1)`, for `a > 0`. -/
def binaryExponent (a : ℚ) : Int :=
  let e : Int := (floorLog2 a.num.natAbs : Int) - (floorLog2 a.den : Int)
  if a < pow2 e then e - 1 else e

/-- Rounding of an exact value to `float64`, to nearest with ties to even: 53
significant bits, gradual underflow below `2 ^ (-1022)`, infinity from `2 ^ 1024`. -/
def Float64.ofRat (q : ℚ) : Float64 :=
  if q = 0 then .fin 0
  else
    let a := |q|
    let quantum := pow2 (max (binaryExponent a) (-1022) - 52)
    let r := (roundTiesEven (a / quantum) : ℚ) * quantum
    if pow2 1024 ≤ r then .inf (decide (q < 0))
    else .fin (if q < 0 then -r else r)

/-- The conversion `float64(n)` of an integer. -/
def Float64.ofInt (n : Int) : Float64 := Float64.ofRat (n : ℚ)

/-- Unary minus. -/
def Float64.neg : Float64 → Float64
  | .nan => .nan
  | .inf s => .inf (!s)
  | .fin x => .fin (-x)

/-- The sum `x + y`. -/
def Float64.add : Float64 → Float64 → Float64
  | .nan, _ => .nan
  | _, .nan => .nan
  | .inf s, .inf t => if s = t then .inf s else .nan
  | .inf s, .fin _ => .inf s
  | .fin _, .inf t => .inf t
  | .fin x, .fin y => Float64.ofRat (x + y)

/-- The difference `x - y`. -/
def Float64.sub (x y : Float64) : Float64 := Float64.add x (Float64.neg y)

/-- The product `x * y`. -/
def Float64.mul : Float64 → Float64 → Float64
  | .nan, _ => .nan
  | _, .nan => .nan
  | .inf s, .inf t => .inf (xor s t)
  | .inf s, .fin y => if y = 0 then .nan else .inf (xor s (decide (y < 0)))
  | .fin x, .inf t => if x = 0 then .nan else .inf (xor (decide (x < 0)) t)
  | .fin x, .fin y => Float64.ofRat (x * y)

/-- The comparison `x < y`; false when either side is NaN. -/
def Float64.lt : Float64 → Float64 → Bool
  | .nan, _ => false
  | _, .nan => false
  | .inf s, .inf t => s && !t
  | .inf s, .fin _ => s
  | .fin _, .inf t => !t
  | .fin x, .fin y => decide (x < y)

/-- The comparison `x <= y`; false when either side is NaN. -/
def Float64.le : Float64 → Float64 → Bool
  | .nan, _ => false
  | _, .nan => false
  | .inf s, .inf t => s || !t
  | .inf s, .fin _ => s
  | .fin _, .inf t => !t
  | .fin x, .fin y => decide (x ≤ y)

instance : Add Float64 := ⟨Float64.add⟩
instance : Sub Float64 := ⟨Float64.sub⟩
instance : Mul Float64 := ⟨Float64.mul⟩
instance : Neg Float64 := ⟨Float64.neg⟩
instance : LT Float64 := ⟨fun x y => Float64.lt x y = true⟩
instance : LE Float64 := ⟨fun x y => Float64.le x y = true⟩
instance (x y : Float64) : Decidable (x < y) := inferInstanceAs (Decidable (Float64.lt x y = true))
instance (x y : Float64) : Decidable (x ≤ y) := inferInstanceAs (Decidable (Float64.le x y = true))
instance (n : Nat) : OfNat Float64 n := ⟨Float64.ofRat (n : ℚ)⟩

/-- The `float64` that a decimal number denotes when it is parsed (`strconv.ParseFloat`,
JSON decoding): the nearest one. -/
def dec (q : ℚ) : Float64 := Float64.ofRat q

/-! ## Data model (`src/models/user.go`) -/

/-- Go struct `models.Share`. -/
structure Share where
  ShareID : String
  Symbol : String
  Company : String
  Quantity : Int
  PriceBaught : Float64
  PriceSold : Float64
  SoldIndicator : String
  DateBaught : String
  DateSold : String
deriving DecidableEq

/-- Go struct `models.User`; a nil `Shares` slice is `none`. -/
structure User where
  Username : String
  Email : String
  EmailConfimed : Bool
  Phone : String
  Hash : String
  FirstName : String
  MiddleName : String
  LastName : String
  AccountStatus : String
  Balance : Float64
  CreatedDate : String
  Shares : Option (List Share)
deriving DecidableEq

/-- A share sub-document as stored: the fields of `models.Share` plus the field
`ownedOrSold`, which only `UpdateShareToSold` writes and no Go struct decodes. -/
structure ShareDoc where
  share : Share
  ownedOrSold : Option String
deriving DecidableEq

/-- A document of the `Users` collection; `Shares = none` is a null or missing
`shares` field. -/
structure UserDoc where
  Username : String
  Email : String
  EmailConfimed : Bool
  Phone : String
  Hash : String
  FirstName : String
  MiddleName : String
  LastName : String
  AccountStatus : String
  Balance : Float64
  CreatedDate : String
  Shares : Option (List ShareDoc)
deriving DecidableEq

/-- BSON encoding of a `models.Share` value. -/
def Share.toDoc (s : Share) : ShareDoc := ⟨s, none⟩

/-- BSON encoding of a `models.User` value (what `InsertOne` stores). -/
def User.toDoc (u : User) : UserDoc :=
  { Username := u.Username, Email := u.Email, EmailConfimed := u.EmailConfimed,
    Phone := u.Phone, Hash := u.Hash, FirstName := u.FirstName,
    MiddleName := u.MiddleName, LastName := u.LastName,
    AccountStatus := u.AccountStatus, Balance := u.Balance,
    CreatedDate := u.CreatedDate, Shares := u.Shares.map (List.map Share.toDoc) }

/-- Decoding of a stored document into `models.User`. -/
def UserDoc.decode (d : UserDoc) : User :=
  { Username := d.Username, Email := d.Email, EmailConfimed := d.EmailConfimed,
    Phone := d.Phone, Hash := d.Hash, FirstName := d.FirstName,
    MiddleName := d.MiddleName, LastName := d.LastName,
    AccountStatus := d.AccountStatus, Balance := d.Balance,
    CreatedDate := d.CreatedDate, Shares := d.Shares.map (List.map ShareDoc.share) }

/-! ## Errors -/

/-- The Go `error` values that reach the callers of the database layer. -/
inductive GoError where
  /-- `mongo.ErrNoDocuments`: `FindOne` matched nothing. -/
  | ErrNoDocuments
  /-- Any other failure of a driver call (deadline exceeded, connection lost, a
  rejected update). -/
  | driver (msg : String)
  /-- `fmt.Errorf("Insufficient balance to purchase the shares.")`. -/
  | insufficientBalance
  /-- `fmt.Errorf("Unable to complete the transaction. User does not own the shares.")`. -/
  | notOwned
  /-- `bcrypt.ErrMismatchedHashAndPassword`. -/
  | ErrMismatchedHashAndPassword
  /-- Any other error of the bcrypt package. -/
  | bcrypt (msg : String)
deriving DecidableEq

/-- Method `Error()` of an error value. -/
def GoError.Error : GoError → String
  | .ErrNoDocuments => "mongo: no documents in result"
  | .driver msg => msg
  | .insufficientBalance => "Insufficient balance to purchase the shares."
  | .notOwned => "Unable to complete the transaction. User does not own the shares."
  | .ErrMismatchedHashAndPassword =>
      "crypto/bcrypt: hashedPassword is not the hash of the given password"
  | .bcrypt msg => msg

/-! ## The document store -/

/-- `mongo.UpdateResult`. -/
structure UpdateResult where
  MatchedCount : Nat
  ModifiedCount : Nat
deriving DecidableEq

/-- The store behind `*mongo.Client`: the `Users` collection, the fault schedule of
the driver calls, the number of driver calls made so far, and the log of applied
writes (the document as written, in order). -/
structure Mongo where
  Users : List UserDoc
  faults : Nat → Option String
  calls : Nat
  oplog : List UserDoc

/-- One driver call has been made. -/
def Mongo.next (m : Mongo) : Mongo := { m with calls := m.calls + 1 }

/-- Replace the first document that satisfies `p`. -/
def replaceFirst (p : UserDoc → Bool) (d' : UserDoc) : List UserDoc → List UserDoc
  | [] => []
  | d :: ds => if p d then d' :: ds else d :: replaceFirst p d' ds

/-- `collection.FindOne(ctx, filter).Decode(..)`: the first matching document, or
`mongo.ErrNoDocuments`. -/
def FindOne (m : Mongo) (filter : UserDoc → Bool) : Except GoError UserDoc × Mongo :=
  match m.faults m.calls with
  | some e => (.error (.driver e), m.next)
  | none =>
    match m.Users.find? filter with
    | some d => (.ok d, m.next)
    | none => (.error .ErrNoDocuments, m.next)

/-- `collection.CountDocuments(ctx, filter)`. -/
def CountDocuments (m : Mongo) (filter : UserDoc → Bool) : Except GoError Nat × Mongo :=
  match m.faults m.calls with
  | some e => (.error (.driver e), m.next)
  | none => (.ok (m.Users.countP filter), m.next)

/-- `collection.InsertOne(ctx, doc)`. -/
def InsertOne (m : Mongo) (d : UserDoc) : Except GoError Unit × Mongo :=
  match m.faults m.calls with
  | some e => (.error (.driver e), m.next)
  | none => (.ok (), { m.next with Users := m.Users ++ [d], oplog := m.oplog ++ [d] })

/-- `collection.DeleteOne(ctx, filter)`: removes the first match, returns the
deleted count. -/
def DeleteOne (m : Mongo) (filter : UserDoc → Bool) : Except GoError Nat × Mongo :=
  match m.faults m.calls with
  | some e => (.error (.driver e), m.next)
  | none =>
    match m.Users.find? filter with
    | some _ => (.ok 1, { m.next with Users := m.Users.eraseP filter })
    | none => (.ok 0, m.next)

/-- `collection.UpdateOne(ctx, filter, update)`: applies `update` to the first
matching document.  No match is not an error (`MatchedCount = 0`); an update the
server rejects is. -/
def UpdateOne (m : Mongo) (filter : UserDoc → Bool)
    (update : UserDoc → Except GoError UserDoc) : Except GoError UpdateResult × Mongo :=
  match m.faults m.calls with
  | some e => (.error (.driver e), m.next)
  | none =>
    match m.Users.find? filter with
    | none => (.ok ⟨0, 0⟩, m.next)
    | some d =>
      match update d with
      | .error e => (.error e, m.next)
      | .ok d' =>
        (.ok ⟨1, if d' = d then 0 else 1⟩,
          { m.next with Users := replaceFirst filter d' m.Users, oplog := m.oplog ++ [d'] })

/-! ## Database layer (`src/database/mongodb.go`) -/

/-- The filter `bson.M{"email": bson.M{"$eq": email}}` (also written
`bson.M{"email": email}`). -/
def emailFilter (email : String) : UserDoc → Bool := fun d => d.Email == email

/-- Go `GetBalance`: the `balance` field of the account, or the lookup error (with
the zero value of `models.Balance`). -/
def GetBalance (email : String) (client : Mongo) : (Float64 × Option GoError) × Mongo :=
  match FindOne client (emailFilter email) with
  | (.error err, c1) => ((0, some err), c1)
  | (.ok d, c1) => ((d.Balance, none), c1)

/-- The zero value `models.User{}`. -/
def User.zero : User :=
  { Username := "", Email := "", EmailConfimed := false, Phone := "", Hash := "",
    FirstName := "", MiddleName := "", LastName := "", AccountStatus := "", Balance := 0,
    CreatedDate := "", Shares := none }

/-- Go `GetUserData`: the whole account decoded into `models.User`, or the lookup
error (with the zero value of `models.User`). -/
def GetUserData (email : String) (client : Mongo) : (User × Option GoError) × Mongo :=
  match FindOne client (emailFilter email) with
  | (.error err, c1) => ((User.zero, some err), c1)
  | (.ok d, c1) => ((d.decode, none), c1)

/-- The update `bson.M{"$set": bson.M{"balance": newBalance}}`. -/
def setBalance (newBalance : Float64) : UserDoc → Except GoError UserDoc :=
  fun d => .ok { d with Balance := newBalance }

/-- Go `UpdateBalance`: read the current balance, compute the new one from the two
flags, overwrite the stored balance. -/
def UpdateBalance (client : Mongo) (email : String) (amountToAddOrDeduct : Float64)
    (toAdd toDeduct : Bool) : Option GoError × Mongo :=
  match GetBalance email client with
  | ((_, some err), c1) => (some err, c1)
  | ((currentBalance, none), c1) =>
    let newBalance : Float64 := 0
    let newBalance := if toAdd then currentBalance + amountToAddOrDeduct else newBalance
    let newBalance := if toDeduct then currentBalance - amountToAddOrDeduct else newBalance
    match UpdateOne c1 (emailFilter email) (setBalance newBalance) with
    | (.error err, c2) => (some err, c2)
    | (.ok _, c2) => (none, c2)

/-- The update `bson.M{"$set": bson.M{"shares": shares}}`. -/
def setShares (shares : List Share) : UserDoc → Except GoError UserDoc :=
  fun d => .ok { d with Shares := some (shares.map Share.toDoc) }

/-- The update `bson.M{"$push": bson.M{"shares": share}}`: appends to the array; the
server rejects a push onto a field that is not an array. -/
def pushShare (share : Share) : UserDoc → Except GoError UserDoc :=
  fun d =>
    match d.Shares with
    | some l => .ok { d with Shares := some (l ++ [share.toDoc]) }
    | none => .error (.driver "The field 'shares' must be an array but is of type null")

/-- Go `SaveBaughtShare` (Buy).  `objectID` is the value of
`primitive.NewObjectID().Hex()` and `now` the value of `time.Now().String()`. -/
def SaveBaughtShare (email : String) (share : Share) (client : Mongo)
    (objectID now : String) : (Option UpdateResult × Option GoError) × Mongo :=
  match GetBalance email client with
  | ((_, some err), c1) => ((none, some err), c1)
  | ((balance, none), c1) =>
    if balance < share.PriceBaught * Float64.ofInt share.Quantity then
      ((none, some .insufficientBalance), c1)
    else
      let cost := share.PriceBaught * Float64.ofInt share.Quantity
      match UpdateBalance c1 email cost false true with
      | (some err, c2) => ((none, some err), c2)
      | (none, c2) =>
        match GetUserData email c2 with
        | ((_, some err), c3) => ((none, some err), c3)
        | ((user, none), c3) =>
          let share := { share with ShareID := objectID, SoldIndicator := "N", DateBaught := now }
          match user.Shares with
          | none =>
            let shares := [] ++ [share]
            match UpdateOne c3 (emailFilter email) (setShares shares) with
            | (.error err, c4) =>
              let c5 := (UpdateBalance c4 email cost true false).2
              ((none, some err), c5)
            | (.ok result, c4) => ((some result, none), c4)
          | some _ =>
            match UpdateOne c3 (emailFilter email) (pushShare share) with
            | (.error err, c4) =>
              let c5 := (UpdateBalance c4 email cost true false).2
              ((none, some err), c5)
            | (.ok result, c4) => ((some result, none), c4)

/-- The loop of Go `GetSoldIndicator`: it runs over the whole list without leaving
at a match, so the indicator of the last share with the identifier is kept. -/
def soldIndicatorLoop (shareID : String) (shares : List Share) : String :=
  shares.foldl (fun soldIndicator s => if s.ShareID = shareID then s.SoldIndicator else soldIndicator) ""

/-- Go `GetSoldIndicator`. -/
def GetSoldIndicator (email shareID : String) (client : Mongo) :
    (String × Option GoError) × Mongo :=
  match FindOne client (emailFilter email) with
  | (.error err, c1) => (("", some err), c1)
  | (.ok d, c1) => ((soldIndicatorLoop shareID (d.decode.Shares.getD []), none), c1)

/-- The filter `bson.M{"email": email, "shares.shareID": shareID}`. -/
def shareFilter (email shareID : String) : UserDoc → Bool := fun d =>
  d.Email == email && (d.Shares.getD []).any (fun s => s.share.ShareID == shareID)

/-- The positional operator `shares.$`: the first array element that matches the
query condition on `shares.shareID`. -/
def setFirstShare (shareID : String) (f : ShareDoc → ShareDoc) : List ShareDoc → List ShareDoc
  | [] => []
  | s :: ss => if s.share.ShareID = shareID then f s :: ss else s :: setFirstShare shareID f ss

/-- The fields that `UpdateShareToSold` sets on the matched share. -/
def markSold (date : String) (priceSold : Float64) (s : ShareDoc) : ShareDoc :=
  { share := { s.share with DateSold := date, SoldIndicator := "Y", PriceSold := priceSold },
    ownedOrSold := some "Sold" }

/-- The update `bson.M{"$set": bson.M{"shares.$.ownedOrSold": "Sold", "shares.$.dateSold": date,
"shares.$.soldIndicator": "Y", "shares.$.priceSold": share.PriceSold}}`. -/
def setSold (shareID date : String) (priceSold : Float64) : UserDoc → Except GoError UserDoc :=
  fun d => .ok { d with Shares := d.Shares.map (setFirstShare shareID (markSold date priceSold)) }

/-- Go `UpdateShareToSold` (Sell).  `now` is the value of `time.Now().String()`. -/
def UpdateShareToSold (email : String) (share : Share) (client : Mongo) (now : String) :
    (Option UpdateResult × Option GoError) × Mongo :=
  let shareID := share.ShareID
  let result : UpdateResult := ⟨0, 0⟩
  match GetSoldIndicator email shareID client with
  | ((_, some err), c1) => ((some result, some err), c1)
  | ((soldIndicator, none), c1) =>
    if soldIndicator = "N" then
      let cost := share.PriceSold * Float64.ofInt share.Quantity
      match UpdateBalance c1 email cost true false with
      | (some err, c2) => ((none, some err), c2)
      | (none, c2) =>
        let date := now
        match UpdateOne c2 (shareFilter email shareID) (setSold shareID date share.PriceSold) with
        | (.error err, c3) =>
          let c4 := (UpdateBalance c3 email cost false true).2
          ((none, some err), c4)
        | (.ok result, c3) => ((some result, none), c3)
    else
      ((some result, some .notOwned), c1)

/-- Go `GetUserHash`: the stored `hash` field. -/
def GetUserHash (email : String) (client : Mongo) : (String × Option GoError) × Mongo :=
  match FindOne client (emailFilter email) with
  | (.error err, c1) => (("", some err), c1)
  | (.ok d, c1) => ((d.Hash, none), c1)

/-- The two bcrypt functions the repository calls (`golang.org/x/crypto/bcrypt`). -/
structure Bcrypt where
  GenerateFromPassword : String → Nat → Except GoError String
  CompareHashAndPassword : String → String → Option GoError

/-- Go `AuthenticateUserOnDB`. -/
def AuthenticateUserOnDB (bc : Bcrypt) (email password : String) (client : Mongo) :
    Option GoError × Mongo :=
  match GetUserHash email client with
  | ((_, some err), c1) => (some err, c1)
  | ((hash, none), c1) =>
    match bc.CompareHashAndPassword hash password with
    | some err => (some err, c1)
    | none => (none, c1)

/-- Go `CheckIfEmailExists`. -/
def CheckIfEmailExists (email : String) (client : Mongo) : (Bool × Option GoError) × Mongo :=
  match CountDocuments client (emailFilter email) with
  | (.error err, c1) => ((true, some err), c1)
  | (.ok number, c1) => if number ≠ 0 then ((true, none), c1) else ((false, none), c1)

/-- Go `SaveNewUser`; `some ()` stands for the `*mongo.InsertOneResult`. -/
def SaveNewUser (user : User) (client : Mongo) : (Option Unit × Option GoError) × Mongo :=
  let user := { user with EmailConfimed := false }
  match InsertOne client user.toDoc with
  | (.error err, c1) => ((none, some err), c1)
  | (.ok result, c1) => ((some result, none), c1)

/-- Go `DeleteUserFromDB`; the result is the deleted count. -/
def DeleteUserFromDB (email : String) (client : Mongo) : (Option Nat × Option GoError) × Mongo :=
  match DeleteOne client (emailFilter email) with
  | (.error err, c1) => ((none, some err), c1)
  | (.ok result, c1) => ((some result, none), c1)

/-! ## Request handlers (`src/handlers/userHandler.go`) -/

/-- What a handler writes after the status line. -/
inductive Body where
  /-- Plain text written by `http.Error`. -/
  | text (s : String)
  /-- JSON encoding of a string. -/
  | jsonString (s : String)
  /-- JSON encoding of a `*mongo.InsertOneResult`. -/
  | jsonInsertOneResult
  /-- JSON encoding of a `*mongo.DeleteResult` (`none` is the nil pointer). -/
  | jsonDeleteResult (r : Option Nat)
deriving DecidableEq

/-- An HTTP response: status code and body. -/
structure Response where
  status : Nat
  body : Body
deriving DecidableEq

/-- `http.Error(w, msg, code)`: the message and a newline, with the status code. -/
def httpError (msg : String) (code : Nat) : Response := ⟨code, .text (msg ++ "\n")⟩

/-- Go handler `Register`.  `body` is the outcome of decoding the request body. -/
def Register (bc : Bcrypt) (client : Mongo) (body : Except String User) : Response × Mongo :=
  match body with
  | .error err => (httpError err 400, client)
  | .ok user =>
    match CheckIfEmailExists user.Email client with
    | ((_, some err), c1) =>
      (httpError ("Error while checking if email already exists. " ++ err.Error) 500, c1)
    | ((checkResult, none), c1) =>
      if checkResult then (httpError "Email already in use." 400, c1)
      else
        let password := user.Hash
        match bc.GenerateFromPassword password 8 with
        | .error _ => (httpError "Unable to hash the password" 500, c1)
        | .ok hashedPassword =>
          let user := { user with Hash := hashedPassword }
          match SaveNewUser user c1 with
          | ((_, some _), c2) => (httpError "Error while saving the member to db." 500, c2)
          | ((_, none), c2) => (⟨201, .jsonInsertOneResult⟩, c2)

/-- Go handler `AuthenticateUser`. -/
def AuthenticateUser (bc : Bcrypt) (client : Mongo) (email password : String) :
    Response × Mongo :=
  if email = "" ∨ password = "" then (httpError "Email or password is missing." 400, client)
  else
    match AuthenticateUserOnDB bc email password client with
    | (some err, c1) => (httpError ("Unable to authenticate: " ++ err.Error) 401, c1)
    | (none, c1) => (⟨200, .jsonString "User has been authenticated successfully."⟩, c1)

/-- Go handler `DeleteUser`. -/
def DeleteUser (bc : Bcrypt) (client : Mongo) (email password : String) : Response × Mongo :=
  if email = "" ∨ password = "" then (httpError "Email or password is missing." 400, client)
  else
    match AuthenticateUserOnDB bc email password client with
    | (some err, c1) => (httpError ("Unable to authenticate: " ++ err.Error) 401, c1)
    | (none, c1) =>
      match DeleteUserFromDB email c1 with
      | ((result, _), c2) => (⟨200, .jsonDeleteResult result⟩, c2)


/-! ## Derived notions used in the statements -/

/-- The store after one applied `UpdateOne`: the first document matching `filter` is
replaced by `d'` and the write is logged. -/
def Mongo.wrote (m : Mongo) (filter : UserDoc → Bool) (d' : UserDoc) : Mongo :=
  { Users := replaceFirst filter d' m.Users, faults := m.faults, calls := m.calls + 1,
    oplog := m.oplog ++ [d'] }

/-- The balance `UpdateBalance` computes from the two flags. -/
def newBalanceOf (currentBalance amount : Float64) (toAdd toDeduct : Bool) : Float64 :=
  if toDeduct then currentBalance - amount else if toAdd then currentBalance + amount else 0

/-- The document `d` with its `balance` field overwritten. -/
def UserDoc.withBalance (d : UserDoc) (b : Float64) : UserDoc := { d with Balance := b }

/-- The document `d` with its `shares` field overwritten. -/
def UserDoc.withShares (d : UserDoc) (l : List ShareDoc) : UserDoc := { d with Shares := some l }

/-- The share `SaveBaughtShare` stores for a request: new identifier, open, dated. -/
def boughtShare (share : Share) (objectID now : String) : Share :=
  { share with ShareID := objectID, SoldIndicator := "N", DateBaught := now }

/-! ## Example data -/

/-- An account document of the examples: email `a@x`, the given balance and shares. -/
def exampleAccount (balance : Float64) (shares : Option (List ShareDoc)) : UserDoc :=
  { Username := "alice", Email := "a@x", EmailConfimed := false, Phone := "", Hash := "bcrypt(pw)",
    FirstName := "", MiddleName := "", LastName := "", AccountStatus := "active",
    Balance := balance, CreatedDate := "", Shares := shares }

/-- A fault schedule without failures. -/
def noFaults : Nat → Option String := fun _ => none

/-- A fault schedule whose `n`-th driver call (counted from 0) fails. -/
def faultAt (n : Nat) : Nat → Option String :=
  fun k => if k = n then some "context deadline exceeded" else none

/-- A store holding the one example account. -/
def exampleStore (balance : Float64) (shares : Option (List ShareDoc)) (faults : Nat → Option String) :
    Mongo :=
  { Users := [exampleAccount balance shares], faults := faults, calls := 0, oplog := [] }

/-- A buy request as decoded from a body `{"symbol":"X","quantity":q,"priceBaught":p}`. -/
def buyRequest (quantity : Int) (price : Float64) : Share :=
  { ShareID := "", Symbol := "X", Company := "", Quantity := quantity, PriceBaught := price,
    PriceSold := 0, SoldIndicator := "", DateBaught := "", DateSold := "" }

/-- A sell request as decoded from a body `{"shareID":id,"quantity":q,"priceSold":p}`. -/
def sellRequest (shareID : String) (quantity : Int) (price : Float64) : Share :=
  { ShareID := shareID, Symbol := "", Company := "", Quantity := quantity, PriceBaught := 0,
    PriceSold := price, SoldIndicator := "", DateBaught := "", DateSold := "" }

/-- A stored lot of 10 at price 5 under the given identifier and sold indicator. -/
def exampleLot (shareID soldIndicator : String) : ShareDoc :=
  ⟨{ ShareID := shareID, Symbol := "X", Company := "", Quantity := 10, PriceBaught := 5,
     PriceSold := 0, SoldIndicator := soldIndicator, DateBaught := "t1", DateSold := "" }, none⟩

/-- A stand-in for the bcrypt package with its error contract: a password that does
not match the stored hash gives `bcrypt.ErrMismatchedHashAndPassword`. -/
def exampleBcrypt : Bcrypt :=
  { GenerateFromPassword := fun password _ => .ok ("bcrypt(" ++ password ++ ")"),
    CompareHashAndPassword := fun hash password =>
      if hash = "bcrypt(" ++ password ++ ")" then none else some .ErrMismatchedHashAndPassword }

/-- A store without documents. -/
def emptyStore : Mongo := { Users := [], faults := noFaults, calls := 0, oplog := [] }

/-- A registration body carrying the email `a@x`. -/
def exampleRegistration : User :=
  { Username := "mallory", Email := "a@x", EmailConfimed := true, Phone := "", Hash := "secret",
    FirstName := "", MiddleName := "", LastName := "", AccountStatus := "", Balance := 1000,
    CreatedDate := "", Shares := none }

/-! ## `float64` lemmas -/

theorem Float64.not_lt_of_le {x y : Float64} (h : x ≤ y) : ¬ y < x := by
  change Float64.le x y = true at h
  change ¬ Float64.lt y x = true
  rcases x with _ | s | x <;> rcases y with _ | t | y <;> simp_all [Float64.le, Float64.lt]
  cases s <;> cases t <;> simp_all

theorem Float64.zero_eq : (0 : Float64) = .fin 0 := by
  show Float64.ofRat ((0 : Nat) : ℚ) = .fin 0
  simp [Float64.ofRat]

theorem pow2_pos (e : Int) : 0 < pow2 e := by
  unfold pow2
  split
  · positivity
  · positivity

theorem roundTiesEven_nonneg {x : ℚ} (hx : 0 ≤ x) : 0 ≤ roundTiesEven x := by
  have hf : 0 ≤ Rat.floor x := by
    have h : Rat.floor x = ⌊x⌋ := rfl
    rw [h]
    exact Int.floor_nonneg.mpr hx
  unfold roundTiesEven
  simp only
  split
  · exact hf
  · split
    · omega
    · split
      · exact hf
      · omega

theorem Float64.ofRat_nonneg {q : ℚ} (hq : 0 ≤ q) : (0 : Float64) ≤ Float64.ofRat q := by
  rw [Float64.zero_eq]
  change Float64.le (.fin 0) (Float64.ofRat q) = true
  unfold Float64.ofRat
  have hnot : ¬ q < 0 := not_lt.mpr hq
  have hr : 0 ≤ (roundTiesEven (|q| / pow2 (max (binaryExponent |q|) (-1022) - 52)) : ℚ) *
      pow2 (max (binaryExponent |q|) (-1022) - 52) := by
    apply mul_nonneg
    · exact_mod_cast roundTiesEven_nonneg (div_nonneg (abs_nonneg q) (pow2_pos _).le)
    · exact (pow2_pos _).le
  by_cases h0 : q = 0
  · simp [h0, Float64.le]
  · simp only [h0, if_false, hnot, decide_False]
    split
    · simp [Float64.le]
    · simpa [Float64.le] using hr

/-- A debit that passes the guard `¬ b < c` gives a value `≥ 0`, unless the balance
or the cost is NaN or both are the same infinity (then it gives NaN). -/
theorem Float64.sub_nonneg_or_special {b c : Float64} (h : ¬ b < c) :
    (0 : Float64) ≤ b - c ∨ b = .nan ∨ c = .nan ∨ ∃ s, b = .inf s ∧ c = .inf s := by
  change ¬ Float64.lt b c = true at h
  rcases b with _ | s | x <;> rcases c with _ | t | y
  · right; left; rfl
  · right; left; rfl
  · right; left; rfl
  · right; right; left; rfl
  · cases s <;> cases t <;> simp_all [Float64.lt]
    rw [Float64.zero_eq]; rfl
  · cases s <;> simp_all [Float64.lt]
    rw [Float64.zero_eq]; rfl
  · right; right; left; rfl
  · cases t <;> simp_all [Float64.lt]
    rw [Float64.zero_eq]; rfl
  · left
    have hxy : 0 ≤ x + -y := by
      simp only [Float64.lt, decide_eq_true_eq, not_lt] at h
      linarith
    exact Float64.ofRat_nonneg hxy

/-! ## Store lemmas -/

theorem find?_replaceFirst (p : UserDoc → Bool) (d' : UserDoc) (hp : p d' = true) :
    ∀ (l : List UserDoc) (d : UserDoc), l.find? p = some d → (replaceFirst p d' l).find? p = some d'
  | [], _, h => by simp at h
  | a :: l, d, h => by
    by_cases ha : p a = true
    · simp [replaceFirst, ha, hp]
    · simp only [List.find?, ha] at h
      simp [replaceFirst, ha, find?_replaceFirst p d' hp l d h]

theorem replaceFirst_replaceFirst (p : UserDoc → Bool) (d₁ d₂ : UserDoc) (hp : p d₁ = true) :
    ∀ l : List UserDoc, replaceFirst p d₂ (replaceFirst p d₁ l) = replaceFirst p d₂ l
  | [] => rfl
  | a :: l => by
    by_cases ha : p a = true
    · simp [replaceFirst, ha, hp]
    · simp [replaceFirst, ha, replaceFirst_replaceFirst p d₁ d₂ hp l]

theorem replaceFirst_self (p : UserDoc → Bool) :
    ∀ (l : List UserDoc) (d : UserDoc), l.find? p = some d → replaceFirst p d l = l
  | [], _, _ => rfl
  | a :: l, d, h => by
    by_cases ha : p a = true
    · simp only [List.find?, ha, Option.some.injEq] at h
      subst h
      simp [replaceFirst, ha]
    · simp only [List.find?, ha] at h
      simp [replaceFirst, ha, replaceFirst_self p l d h]

theorem find?_emailFilter_email {email : String} {l : List UserDoc} {d : UserDoc}
    (h : l.find? (emailFilter email) = some d) : d.Email = email := by
  have := List.find?_some h
  simpa [emailFilter] using this

@[simp] theorem Mongo.next_Users (m : Mongo) : m.next.Users = m.Users := rfl
@[simp] theorem Mongo.next_faults (m : Mongo) : m.next.faults = m.faults := rfl
@[simp] theorem Mongo.next_calls (m : Mongo) : m.next.calls = m.calls + 1 := rfl
@[simp] theorem Mongo.next_oplog (m : Mongo) : m.next.oplog = m.oplog := rfl
@[simp] theorem Mongo.wrote_Users (m : Mongo) (p : UserDoc → Bool) (d : UserDoc) :
    (m.wrote p d).Users = replaceFirst p d m.Users := rfl
@[simp] theorem Mongo.wrote_faults (m : Mongo) (p : UserDoc → Bool) (d : UserDoc) :
    (m.wrote p d).faults = m.faults := rfl
@[simp] theorem Mongo.wrote_calls (m : Mongo) (p : UserDoc → Bool) (d : UserDoc) :
    (m.wrote p d).calls = m.calls + 1 := rfl
@[simp] theorem Mongo.wrote_oplog (m : Mongo) (p : UserDoc → Bool) (d : UserDoc) :
    (m.wrote p d).oplog = m.oplog ++ [d] := rfl

theorem FindOne_ok {c : Mongo} {p : UserDoc → Bool} {d : UserDoc}
    (hf : c.faults c.calls = none) (hd : c.Users.find? p = some d) :
    FindOne c p = (.ok d, c.next) := by
  simp [FindOne, hf, hd]

theorem FindOne_fault {c : Mongo} {p : UserDoc → Bool} {e : String}
    (hf : c.faults c.calls = some e) : FindOne c p = (.error (.driver e), c.next) := by
  simp [FindOne, hf]

theorem FindOne_none {c : Mongo} {p : UserDoc → Bool}
    (hf : c.faults c.calls = none) (hd : c.Users.find? p = none) :
    FindOne c p = (.error .ErrNoDocuments, c.next) := by
  simp [FindOne, hf, hd]

theorem FindOne_snd (c : Mongo) (p : UserDoc → Bool) : (FindOne c p).2 = c.next := by
  unfold FindOne
  cases c.faults c.calls <;> cases c.Users.find? p <;> rfl

theorem GetBalance_snd (email : String) (c : Mongo) : (GetBalance email c).2 = c.next := by
  have h := FindOne_snd c (emailFilter email)
  unfold GetBalance
  cases hf : FindOne c (emailFilter email) with
  | mk r c1 =>
    rw [hf] at h
    cases r <;> exact h

theorem UpdateOne_ok {c : Mongo} {p : UserDoc → Bool} {u : UserDoc → Except GoError UserDoc}
    {d d' : UserDoc} (hf : c.faults c.calls = none) (hd : c.Users.find? p = some d)
    (hu : u d = .ok d') :
    UpdateOne c p u = (.ok ⟨1, if d' = d then 0 else 1⟩, c.wrote p d') := by
  simp [UpdateOne, hf, hd, hu, Mongo.wrote, Mongo.next]

theorem UpdateOne_fault {c : Mongo} {p : UserDoc → Bool} {u : UserDoc → Except GoError UserDoc}
    {e : String} (hf : c.faults c.calls = some e) :
    UpdateOne c p u = (.error (.driver e), c.next) := by
  simp [UpdateOne, hf]

theorem GetBalance_ok {email : String} {c : Mongo} {d : UserDoc}
    (hf : c.faults c.calls = none) (hd : c.Users.find? (emailFilter email) = some d) :
    GetBalance email c = ((d.Balance, none), c.next) := by
  simp [GetBalance, FindOne_ok hf hd]

theorem GetBalance_fault {email : String} {c : Mongo} {e : String}
    (hf : c.faults c.calls = some e) :
    GetBalance email c = ((0, some (.driver e)), c.next) := by
  simp [GetBalance, FindOne_fault hf]

theorem GetUserData_ok {email : String} {c : Mongo} {d : UserDoc}
    (hf : c.faults c.calls = none) (hd : c.Users.find? (emailFilter email) = some d) :
    GetUserData email c = ((d.decode, none), c.next) := by
  simp [GetUserData, FindOne_ok hf hd]

theorem GetUserData_fault {email : String} {c : Mongo} {e : String}
    (hf : c.faults c.calls = some e) :
    GetUserData email c = ((User.zero, some (.driver e)), c.next) := by
  simp [GetUserData, FindOne_fault hf]

theorem emailFilter_of_email {email : String} {d d' : UserDoc}
    (h : d.Email = email) (h' : d'.Email = d.Email) : emailFilter email d' = true := by
  simp [emailFilter, h', h]

@[simp] theorem UserDoc.withBalance_Email (d : UserDoc) (b : Float64) : (d.withBalance b).Email = d.Email := rfl
@[simp] theorem UserDoc.withBalance_Shares (d : UserDoc) (b : Float64) : (d.withBalance b).Shares = d.Shares := rfl
@[simp] theorem UserDoc.withBalance_Balance (d : UserDoc) (b : Float64) : (d.withBalance b).Balance = b := rfl
@[simp] theorem UserDoc.withShares_Email (d : UserDoc) (l : List ShareDoc) : (d.withShares l).Email = d.Email := rfl
@[simp] theorem UserDoc.withShares_Shares (d : UserDoc) (l : List ShareDoc) : (d.withShares l).Shares = some l := rfl
@[simp] theorem UserDoc.withShares_Balance (d : UserDoc) (l : List ShareDoc) : (d.withShares l).Balance = d.Balance := rfl
@[simp] theorem UserDoc.withBalance_withBalance (d : UserDoc) (b b' : Float64) :
    (d.withBalance b).withBalance b' = d.withBalance b' := rfl
@[simp] theorem UserDoc.withBalance_self (d : UserDoc) : d.withBalance d.Balance = d := rfl
@[simp] theorem UserDoc.decode_Shares (d : UserDoc) :
    d.decode.Shares = d.Shares.map (List.map ShareDoc.share) := rfl

@[simp] theorem newBalanceOf_debit (c a : Float64) (toAdd : Bool) : newBalanceOf c a toAdd true = c - a := by
  simp [newBalanceOf]
@[simp] theorem newBalanceOf_credit (c a : Float64) : newBalanceOf c a true false = c + a := by
  simp [newBalanceOf]

theorem UpdateBalance_ok {email : String} {c : Mongo} {d : UserDoc} (a : Float64) (toAdd toDeduct : Bool)
    (hf0 : c.faults c.calls = none) (hf1 : c.faults (c.calls + 1) = none)
    (hd : c.Users.find? (emailFilter email) = some d) :
    UpdateBalance c email a toAdd toDeduct =
      (none, c.next.wrote (emailFilter email)
        (d.withBalance (newBalanceOf d.Balance a toAdd toDeduct))) := by
  have h1 : UpdateOne c.next (emailFilter email)
      (setBalance (newBalanceOf d.Balance a toAdd toDeduct)) = _ :=
    UpdateOne_ok (by simpa using hf1) (by simpa using hd) rfl
  cases toAdd <;> cases toDeduct <;>
    simp [UpdateBalance, GetBalance_ok hf0 hd] <;> simp [newBalanceOf] at h1 <;>
    simp [h1, newBalanceOf, UserDoc.withBalance]

theorem UpdateBalance_readFault {email : String} {c : Mongo} {e : String} (a : Float64)
    (toAdd toDeduct : Bool) (hf0 : c.faults c.calls = some e) :
    UpdateBalance c email a toAdd toDeduct = (some (.driver e), c.next) := by
  simp [UpdateBalance, GetBalance_fault hf0]

theorem UpdateBalance_writeFault {email : String} {c : Mongo} {d : UserDoc} {e : String} (a : Float64)
    (toAdd toDeduct : Bool)
    (hf0 : c.faults c.calls = none) (hf1 : c.faults (c.calls + 1) = some e)
    (hd : c.Users.find? (emailFilter email) = some d) :
    UpdateBalance c email a toAdd toDeduct = (some (.driver e), c.next.next) := by
  have h1 : ∀ b, UpdateOne c.next (emailFilter email) (setBalance b) = _ :=
    fun b => UpdateOne_fault (by simpa using hf1)
  simp [UpdateBalance, GetBalance_ok hf0 hd, h1]

/-! ## Buy -/

theorem pushShare_some {share : Share} {d : UserDoc} {l : List ShareDoc} (h : d.Shares = some l) :
    pushShare share d = .ok (d.withShares (l ++ [share.toDoc])) := by
  simp [pushShare, h, UserDoc.withShares]

theorem setShares_eq (shares : List Share) (d : UserDoc) :
    setShares shares d = .ok (d.withShares (shares.map Share.toDoc)) := rfl

/-- Buy when no driver call fails: the result, and the store after it. -/
theorem SaveBaughtShare_ok {email : String} {share : Share} {client : Mongo}
    (objectID now : String) {d : UserDoc}
    (hd : client.Users.find? (emailFilter email) = some d)
    (hnlt : ¬ d.Balance < share.PriceBaught * Float64.ofInt share.Quantity)
    (hok : ∀ n, client.faults n = none) :
    ∃ result, SaveBaughtShare email share client objectID now =
      ((some result, none),
        ((client.next.next.wrote (emailFilter email)
          (d.withBalance (d.Balance - share.PriceBaught * Float64.ofInt share.Quantity))).next.wrote
          (emailFilter email)
          ((d.withBalance (d.Balance - share.PriceBaught * Float64.ofInt share.Quantity)).withShares
            (d.Shares.getD [] ++ [(boughtShare share objectID now).toDoc])))) := by
  have hem := find?_emailFilter_email hd
  have h1 := GetBalance_ok (hok client.calls) hd
  have h2 : UpdateBalance client.next email (share.PriceBaught * Float64.ofInt share.Quantity) false true = _ :=
    UpdateBalance_ok _ false true (by simp [hok]) (by simp [hok]) (by simpa using hd)
  rw [newBalanceOf_debit] at h2
  have hp : emailFilter email (d.withBalance (d.Balance - share.PriceBaught * Float64.ofInt share.Quantity))
      = true := emailFilter_of_email hem rfl
  have hd2 := find?_replaceFirst (emailFilter email) _ hp _ _ hd
  have h3 : GetUserData email (client.next.next.wrote (emailFilter email)
      (d.withBalance (d.Balance - share.PriceBaught * Float64.ofInt share.Quantity))) = _ :=
    GetUserData_ok (by simp [hok]) (by simpa using hd2)
  cases hs : d.Shares with
  | none =>
    have h4 : UpdateOne (client.next.next.wrote (emailFilter email)
      (d.withBalance (d.Balance - share.PriceBaught * Float64.ofInt share.Quantity))).next
      (emailFilter email)
      (setShares ([] ++ [{ share with ShareID := objectID, SoldIndicator := "N", DateBaught := now }])) = _ :=
      UpdateOne_ok (by simp [hok]) (by simpa using hd2) rfl
    simp only [SaveBaughtShare, h1, hnlt, if_false, h2, h3, UserDoc.decode_Shares,
      UserDoc.withBalance_Shares, hs, Option.map_none', h4]
    exact ⟨_, rfl⟩
  | some L =>
    have h4 : UpdateOne (client.next.next.wrote (emailFilter email)
      (d.withBalance (d.Balance - share.PriceBaught * Float64.ofInt share.Quantity))).next
      (emailFilter email)
      (pushShare { share with ShareID := objectID, SoldIndicator := "N", DateBaught := now }) = _ :=
      UpdateOne_ok (by simp [hok]) (by simpa using hd2)
        (pushShare_some (by simpa using hs))
    simp only [SaveBaughtShare, h1, hnlt, if_false, h2, h3, UserDoc.decode_Shares,
      UserDoc.withBalance_Shares, hs, Option.map_some', h4]
    exact ⟨_, rfl⟩

/-- The two outcomes of `UpdateBalance` on an existing account: an error and no
write, or one overwrite of the balance. -/
theorem UpdateBalance_cases {email : String} {c : Mongo} {d : UserDoc} (a : Float64)
    (toAdd toDeduct : Bool) (hd : c.Users.find? (emailFilter email) = some d) :
    ((UpdateBalance c email a toAdd toDeduct).1 ≠ none ∧
      (UpdateBalance c email a toAdd toDeduct).2.Users = c.Users ∧
      (UpdateBalance c email a toAdd toDeduct).2.oplog = c.oplog) ∨
    UpdateBalance c email a toAdd toDeduct =
      (none, c.next.wrote (emailFilter email)
        (d.withBalance (newBalanceOf d.Balance a toAdd toDeduct))) := by
  cases hf0 : c.faults c.calls with
  | some e => left; simp [UpdateBalance_readFault a toAdd toDeduct hf0]
  | none =>
    cases hf1 : c.faults (c.calls + 1) with
    | some e => left; simp [UpdateBalance_writeFault a toAdd toDeduct hf0 hf1 hd]
    | none => right; exact UpdateBalance_ok a toAdd toDeduct hf0 hf1 hd

/-- Every path of Buy on an existing account, by what it appends to the log of
applied writes: nothing; the debit; the debit and the share write; the debit and the
compensating credit. -/
theorem SaveBaughtShare_oplog {email : String} (share : Share) {client : Mongo}
    (objectID now : String) {d : UserDoc}
    (hd : client.Users.find? (emailFilter email) = some d) :
    (SaveBaughtShare email share client objectID now).2.oplog = client.oplog ∨
    (¬ d.Balance < share.PriceBaught * Float64.ofInt share.Quantity ∧
      ((SaveBaughtShare email share client objectID now).2.oplog = client.oplog ++
          [d.withBalance (d.Balance - share.PriceBaught * Float64.ofInt share.Quantity)] ∨
       (SaveBaughtShare email share client objectID now).2.oplog = client.oplog ++
          [d.withBalance (d.Balance - share.PriceBaught * Float64.ofInt share.Quantity),
           (d.withBalance (d.Balance - share.PriceBaught * Float64.ofInt share.Quantity)).withShares
             (d.Shares.getD [] ++ [(boughtShare share objectID now).toDoc])] ∨
       (SaveBaughtShare email share client objectID now).2.oplog = client.oplog ++
          [d.withBalance (d.Balance - share.PriceBaught * Float64.ofInt share.Quantity),
           d.withBalance (d.Balance - share.PriceBaught * Float64.ofInt share.Quantity
             + share.PriceBaught * Float64.ofInt share.Quantity)])) := by
  have hem := find?_emailFilter_email hd
  cases hf0 : client.faults client.calls with
  | some e => left; simp [SaveBaughtShare, GetBalance_fault hf0]
  | none =>
    have h1 := GetBalance_ok hf0 hd
    by_cases hlt : d.Balance < share.PriceBaught * Float64.ofInt share.Quantity
    · left; simp [SaveBaughtShare, h1, hlt]
    · have hd' : client.next.Users.find? (emailFilter email) = some d := by simpa using hd
      rcases UpdateBalance_cases (share.PriceBaught * Float64.ofInt share.Quantity) false true hd' with
        ⟨he, _, ho⟩ | h2
      · left
        cases hu : UpdateBalance client.next email (share.PriceBaught * Float64.ofInt share.Quantity) false true with
        | mk err c2 =>
          rw [hu] at he ho
          cases err with
          | none => simp at he
          | some err =>
            simp only [SaveBaughtShare, h1, hlt, if_false, hu]
            simpa using ho
      · right
        refine ⟨hlt, ?_⟩
        rw [newBalanceOf_debit] at h2
        have hp : emailFilter email
            (d.withBalance (d.Balance - share.PriceBaught * Float64.ofInt share.Quantity)) = true :=
          emailFilter_of_email hem rfl
        have hd2 := find?_replaceFirst (emailFilter email) _ hp _ _ hd
        cases hf3 : client.faults (client.calls + 3) with
        | some e =>
          left
          have h3 : GetUserData email (client.next.next.wrote (emailFilter email)
              (d.withBalance (d.Balance - share.PriceBaught * Float64.ofInt share.Quantity))) = _ :=
            GetUserData_fault (by simpa using hf3)
          simp [SaveBaughtShare, h1, hlt, h2, h3]
        | none =>
          have h3 : GetUserData email (client.next.next.wrote (emailFilter email)
              (d.withBalance (d.Balance - share.PriceBaught * Float64.ofInt share.Quantity))) = _ :=
            GetUserData_ok (by simpa using hf3) (by simpa using hd2)
          cases hf4 : client.faults (client.calls + 4) with
          | none =>
            right; left
            cases hs : d.Shares with
            | none =>
              have h4 : UpdateOne (client.next.next.wrote (emailFilter email)
                  (d.withBalance (d.Balance - share.PriceBaught * Float64.ofInt share.Quantity))).next
                  (emailFilter email)
                  (setShares ([] ++ [{ share with ShareID := objectID, SoldIndicator := "N", DateBaught := now }])) = _ :=
                UpdateOne_ok (by simpa using hf4) (by simpa using hd2) rfl
              simp only [SaveBaughtShare, h1, hlt, if_false, h2, h3, UserDoc.decode_Shares,
                UserDoc.withBalance_Shares, hs, Option.map_none', h4]
              simp [boughtShare, UserDoc.withShares, Share.toDoc]
            | some L =>
              have h4 : UpdateOne (client.next.next.wrote (emailFilter email)
                  (d.withBalance (d.Balance - share.PriceBaught * Float64.ofInt share.Quantity))).next
                  (emailFilter email)
                  (pushShare { share with ShareID := objectID, SoldIndicator := "N", DateBaught := now }) = _ :=
                UpdateOne_ok (by simpa using hf4) (by simpa using hd2)
                  (pushShare_some (by simpa using hs))
              simp only [SaveBaughtShare, h1, hlt, if_false, h2, h3, UserDoc.decode_Shares,
                UserDoc.withBalance_Shares, hs, Option.map_some', h4]
              simp [boughtShare, UserDoc.withShares, Share.toDoc]
          | some e =>
            have h4 : ∀ u, UpdateOne (client.next.next.wrote (emailFilter email)
                (d.withBalance (d.Balance - share.PriceBaught * Float64.ofInt share.Quantity))).next
                (emailFilter email) u = _ :=
              fun u => UpdateOne_fault (by simpa using hf4)
            have hd5 : ((client.next.next.wrote (emailFilter email)
                (d.withBalance (d.Balance - share.PriceBaught * Float64.ofInt share.Quantity))).next.next).Users.find?
                (emailFilter email) =
                some (d.withBalance (d.Balance - share.PriceBaught * Float64.ofInt share.Quantity)) := by
              simpa using hd2
            have hfin : (SaveBaughtShare email share client objectID now).2 =
                (UpdateBalance ((client.next.next.wrote (emailFilter email)
                  (d.withBalance (d.Balance - share.PriceBaught * Float64.ofInt share.Quantity))).next.next)
                  email (share.PriceBaught * Float64.ofInt share.Quantity) true false).2 := by
              cases hs : d.Shares <;>
                simp only [SaveBaughtShare, h1, hlt, if_false, h2, h3, UserDoc.decode_Shares,
                  UserDoc.withBalance_Shares, hs, Option.map_none', Option.map_some', h4]
            rw [hfin]
            rcases UpdateBalance_cases (share.PriceBaught * Float64.ofInt share.Quantity) true false hd5 with
              ⟨_, _, ho⟩ | h6
            · left; rw [ho]; simp
            · right; right; rw [h6]; simp

/-! ## Sell -/

theorem soldIndicatorLoop_append (shareID : String) (l : List Share) (s : Share) :
    soldIndicatorLoop shareID (l ++ [s]) =
      if s.ShareID = shareID then s.SoldIndicator else soldIndicatorLoop shareID l := by
  simp [soldIndicatorLoop, List.foldl_append]

/-- The loop keeps the indicator of the last share carrying the identifier, and the
empty string when there is none. -/
theorem soldIndicatorLoop_eq (shareID : String) (l : List Share) :
    soldIndicatorLoop shareID l =
      (((l.filter (fun s => s.ShareID == shareID)).getLast?).map Share.SoldIndicator).getD "" := by
  induction l using List.reverseRecOn with
  | nil => rfl
  | append_singleton l s ih =>
    rw [soldIndicatorLoop_append, List.filter_append]
    by_cases h : s.ShareID = shareID
    · simp [h, List.filter_cons]
    · simp [h, List.filter_cons, ih]

theorem soldIndicatorLoop_N_mem {shareID : String} {l : List Share}
    (h : soldIndicatorLoop shareID l = "N") : ∃ s ∈ l, s.ShareID = shareID := by
  rw [soldIndicatorLoop_eq] at h
  cases hl : (l.filter (fun s => s.ShareID == shareID)).getLast? with
  | none => rw [hl] at h; simp at h
  | some s =>
    have hm := List.mem_of_getLast?_eq_some hl
    rw [List.mem_filter] at hm
    exact ⟨s, hm.1, by simpa using hm.2⟩

theorem find?_shareFilter {email shareID : String} {d : UserDoc} (hs : shareFilter email shareID d = true) :
    ∀ {l : List UserDoc}, l.find? (emailFilter email) = some d →
      l.find? (shareFilter email shareID) = some d ∧
      ∀ d', replaceFirst (shareFilter email shareID) d' l = replaceFirst (emailFilter email) d' l
  | [], h => by simp at h
  | a :: l, h => by
    by_cases ha : emailFilter email a = true
    · simp only [List.find?, ha, Option.some.injEq] at h
      subst h
      simp [replaceFirst, ha, hs]
    · simp only [List.find?, ha] at h
      have hna : shareFilter email shareID a = false := by
        simp only [emailFilter] at ha
        simp [shareFilter, ha]
      have ih := find?_shareFilter hs h
      simp [replaceFirst, ha, hna, ih.1, ih.2]

theorem Mongo.wrote_congr (c : Mongo) (p q : UserDoc → Bool) (d : UserDoc)
    (h : replaceFirst p d c.Users = replaceFirst q d c.Users) : c.wrote p d = c.wrote q d := by
  simp [Mongo.wrote, h]

theorem setSold_eq (shareID date : String) (priceSold : Float64) (d : UserDoc) (l : List ShareDoc)
    (h : d.Shares = some l) :
    setSold shareID date priceSold d =
      .ok (d.withShares (setFirstShare shareID (markSold date priceSold) l)) := by
  simp [setSold, h, UserDoc.withShares]

theorem GetSoldIndicator_ok {email shareID : String} {c : Mongo} {d : UserDoc}
    (hf : c.faults c.calls = none) (hd : c.Users.find? (emailFilter email) = some d) :
    GetSoldIndicator email shareID c =
      ((soldIndicatorLoop shareID ((d.Shares.getD []).map ShareDoc.share), none), c.next) := by
  have : d.decode.Shares.getD [] = (d.Shares.getD []).map ShareDoc.share := by
    cases h : d.Shares <;> simp [h]
  simp only [GetSoldIndicator, FindOne_ok hf hd, this]

theorem GetSoldIndicator_fault {email shareID : String} {c : Mongo} {e : String}
    (hf : c.faults c.calls = some e) :
    GetSoldIndicator email shareID c = (("", some (.driver e)), c.next) := by
  simp [GetSoldIndicator, FindOne_fault hf]

/-- Sell fails without a write whenever the indicator found for the identifier is
not "N"; the error is the one of line 291 when the lookup itself succeeds. -/
theorem UpdateShareToSold_not_open {email : String} (share : Share) (client : Mongo)
    (now : String) {d : UserDoc} (hd : client.Users.find? (emailFilter email) = some d)
    (hN : soldIndicatorLoop share.ShareID ((d.Shares.getD []).map ShareDoc.share) ≠ "N") :
    (UpdateShareToSold email share client now).1.2 ≠ none ∧
    (UpdateShareToSold email share client now).2.Users = client.Users ∧
    (UpdateShareToSold email share client now).2.oplog = client.oplog ∧
    (client.faults client.calls = none →
      (UpdateShareToSold email share client now).1 = (some ⟨0, 0⟩, some .notOwned)) := by
  cases hf : client.faults client.calls with
  | some e => simp [UpdateShareToSold, GetSoldIndicator_fault hf]
  | none => simp [UpdateShareToSold, GetSoldIndicator_ok hf hd, hN]

/-- Sell when no driver call fails and the indicator found is "N". -/
theorem UpdateShareToSold_ok {email : String} (share : Share) {client : Mongo} (now : String)
    {d : UserDoc} {l : List ShareDoc}
    (hd : client.Users.find? (emailFilter email) = some d)
    (hl : d.Shares = some l)
    (hN : soldIndicatorLoop share.ShareID (l.map ShareDoc.share) = "N")
    (hok : ∀ n, client.faults n = none) :
    ∃ result, UpdateShareToSold email share client now =
      ((some result, none),
        (client.next.next.wrote (emailFilter email)
          (d.withBalance (d.Balance + share.PriceSold * Float64.ofInt share.Quantity))).wrote
          (emailFilter email)
          ((d.withBalance (d.Balance + share.PriceSold * Float64.ofInt share.Quantity)).withShares
            (setFirstShare share.ShareID (markSold now share.PriceSold) l))) := by
  have hem := find?_emailFilter_email hd
  have h1 : GetSoldIndicator email share.ShareID client = _ := GetSoldIndicator_ok (hok _) hd
  rw [hl] at h1
  simp only [Option.getD_some, hN] at h1
  have h2 : UpdateBalance client.next email (share.PriceSold * Float64.ofInt share.Quantity) true false = _ :=
    UpdateBalance_ok _ true false (by simp [hok]) (by simp [hok]) (by simpa using hd)
  rw [newBalanceOf_credit] at h2
  have hp : emailFilter email (d.withBalance (d.Balance + share.PriceSold * Float64.ofInt share.Quantity))
      = true := emailFilter_of_email hem rfl
  have hd2 := find?_replaceFirst (emailFilter email) _ hp _ _ hd
  obtain ⟨s, hs, hsid⟩ := soldIndicatorLoop_N_mem hN
  have hsf : shareFilter email share.ShareID
      (d.withBalance (d.Balance + share.PriceSold * Float64.ofInt share.Quantity)) = true := by
    simp only [List.mem_map] at hs
    obtain ⟨sd, hsd, rfl⟩ := hs
    simp only [shareFilter, UserDoc.withBalance_Email, UserDoc.withBalance_Shares, hl, hem,
      Option.getD_some, beq_self_eq_true, Bool.true_and, List.any_eq_true]
    exact ⟨sd, hsd, by simpa using hsid⟩
  have hd3 := find?_shareFilter hsf hd2
  have h3 : UpdateOne (client.next.next.wrote (emailFilter email)
      (d.withBalance (d.Balance + share.PriceSold * Float64.ofInt share.Quantity)))
      (shareFilter email share.ShareID) (setSold share.ShareID now share.PriceSold) = _ :=
    UpdateOne_ok (by simp [hok]) (by simpa using hd3.1)
      (setSold_eq _ _ _ _ l (by simpa using hl))
  rw [Mongo.wrote_congr _ (shareFilter email share.ShareID) (emailFilter email) _
    (by simpa using hd3.2 _)] at h3
  simp only [UpdateShareToSold, h1, if_true, h2, h3]
  exact ⟨_, rfl⟩

theorem setFirstShare_append_fresh (shareID : String) (f : ShareDoc → ShareDoc) (x : ShareDoc)
    (hx : x.share.ShareID = shareID) :
    ∀ L : List ShareDoc, (∀ s ∈ L, s.share.ShareID ≠ shareID) →
      setFirstShare shareID f (L ++ [x]) = L ++ [f x]
  | [], _ => by simp [setFirstShare, hx]
  | a :: L, h => by
    have ha : a.share.ShareID ≠ shareID := h a (by simp)
    have ih := setFirstShare_append_fresh shareID f x hx L (fun s hs => h s (by simp [hs]))
    simp [setFirstShare, ha, ih]

theorem soldIndicatorLoop_of_unique {shareID : String} {l : List ShareDoc} {s : ShareDoc}
    (h : l.filter (fun x => x.share.ShareID == shareID) = [s]) :
    soldIndicatorLoop shareID (l.map ShareDoc.share) = s.share.SoldIndicator := by
  have hm : (l.map ShareDoc.share).filter (fun x => x.ShareID == shareID) = [s.share] := by
    rw [List.filter_map]
    have : ((fun x : Share => x.ShareID == shareID) ∘ ShareDoc.share) =
        (fun x : ShareDoc => x.share.ShareID == shareID) := rfl
    rw [this, h]
    rfl
  rw [soldIndicatorLoop_eq, hm]
  rfl

theorem soldIndicatorLoop_of_absent {shareID : String} {l : List ShareDoc}
    (h : ∀ x ∈ l, x.share.ShareID ≠ shareID) :
    soldIndicatorLoop shareID (l.map ShareDoc.share) = "" := by
  have hm : (l.map ShareDoc.share).filter (fun x => x.ShareID == shareID) = [] := by
    rw [List.filter_eq_nil_iff]
    intro x hx
    obtain ⟨y, hy, rfl⟩ := List.mem_map.mp hx
    simpa using h y hy
  rw [soldIndicatorLoop_eq, hm]
  rfl

theorem filter_setFirstShare (shareID : String) (f : ShareDoc → ShareDoc)
    (hf : ∀ x, (f x).share.ShareID = x.share.ShareID) :
    ∀ l : List ShareDoc,
      (setFirstShare shareID f l).filter (fun x => x.share.ShareID == shareID) =
        match l.filter (fun x => x.share.ShareID == shareID) with
        | [] => []
        | x :: xs => f x :: xs
  | [] => rfl
  | a :: l => by
    by_cases ha : a.share.ShareID = shareID
    · simp [setFirstShare, ha, List.filter_cons, hf]
    · have ih := filter_setFirstShare shareID f hf l
      simp only [setFirstShare, ha, if_false, List.filter_cons, beq_iff_eq]
      exact ih

theorem markSold_ShareID (date : String) (priceSold : Float64) (x : ShareDoc) :
    (markSold date priceSold x).share.ShareID = x.share.ShareID := rfl

/-! ## Compensation after a failed share write -/

/-- Buy when the share write fails: the error of the share write is returned,
and the store is the one the compensating `UpdateBalance` leaves. -/
theorem SaveBaughtShare_shareWriteFault {email : String} (share : Share) {client : Mongo}
    (objectID now : String) {d : UserDoc} {e : String}
    (hd : client.Users.find? (emailFilter email) = some d)
    (hnlt : ¬ d.Balance < share.PriceBaught * Float64.ofInt share.Quantity)
    (hf0 : client.faults client.calls = none) (hf1 : client.faults (client.calls + 1) = none)
    (hf2 : client.faults (client.calls + 2) = none) (hf3 : client.faults (client.calls + 3) = none)
    (hf4 : client.faults (client.calls + 4) = some e) :
    SaveBaughtShare email share client objectID now =
      ((none, some (.driver e)),
        (UpdateBalance ((client.next.next.wrote (emailFilter email)
          (d.withBalance (d.Balance - share.PriceBaught * Float64.ofInt share.Quantity))).next.next)
          email (share.PriceBaught * Float64.ofInt share.Quantity) true false).2) := by
  have hem := find?_emailFilter_email hd
  have h1 := GetBalance_ok hf0 hd
  have h2 : UpdateBalance client.next email (share.PriceBaught * Float64.ofInt share.Quantity) false true = _ :=
    UpdateBalance_ok _ false true (by simpa using hf1) (by simpa using hf2) (by simpa using hd)
  rw [newBalanceOf_debit] at h2
  have hp : emailFilter email (d.withBalance (d.Balance - share.PriceBaught * Float64.ofInt share.Quantity))
      = true := emailFilter_of_email hem rfl
  have hd2 := find?_replaceFirst (emailFilter email) _ hp _ _ hd
  have h3 : GetUserData email (client.next.next.wrote (emailFilter email)
      (d.withBalance (d.Balance - share.PriceBaught * Float64.ofInt share.Quantity))) = _ :=
    GetUserData_ok (by simpa using hf3) (by simpa using hd2)
  have h4 : ∀ u, UpdateOne (client.next.next.wrote (emailFilter email)
      (d.withBalance (d.Balance - share.PriceBaught * Float64.ofInt share.Quantity))).next
      (emailFilter email) u = _ :=
    fun u => UpdateOne_fault (by simpa using hf4)
  cases hs : d.Shares <;>
    simp only [SaveBaughtShare, h1, hnlt, if_false, h2, h3, UserDoc.decode_Shares,
      UserDoc.withBalance_Shares, hs, Option.map_none', Option.map_some', h4]

/-- The documents after a balance adjustment of `a` on a store `c'` that differs from
`c` only in the balance `b` of the account: those of `c` with the account's balance
set to the adjusted `b`. -/
theorem Users_after_compensation {email : String} {c : Mongo} {d : UserDoc} (a : Float64)
    (toAdd toDeduct : Bool) (c' : Mongo) (b : Float64)
    (hd : c.Users.find? (emailFilter email) = some d)
    (hc' : c'.Users = replaceFirst (emailFilter email) (d.withBalance b) c.Users)
    (hf0 : c'.faults c'.calls = none) (hf1 : c'.faults (c'.calls + 1) = none) :
    (UpdateBalance c' email a toAdd toDeduct).2.Users =
      replaceFirst (emailFilter email) (d.withBalance (newBalanceOf b a toAdd toDeduct))
        c.Users := by
  have hem := find?_emailFilter_email hd
  have hp : emailFilter email (d.withBalance b) = true := emailFilter_of_email hem rfl
  have hd2 : c'.Users.find? (emailFilter email) = some (d.withBalance b) := by
    rw [hc']; exact find?_replaceFirst (emailFilter email) _ hp _ _ hd
  rw [UpdateBalance_ok a toAdd toDeduct hf0 hf1 hd2]
  simp only [Mongo.wrote_Users, Mongo.next_Users, hc', replaceFirst_replaceFirst _ _ _ hp,
    UserDoc.withBalance_Balance, UserDoc.withBalance_withBalance]

/-- Sell when the share write fails: the error of the share write is returned,
and the store is the one the compensating `UpdateBalance` leaves. -/
theorem UpdateShareToSold_shareWriteFault {email : String} (share : Share) {client : Mongo}
    (now : String) {d : UserDoc} {e : String}
    (hd : client.Users.find? (emailFilter email) = some d)
    (hN : soldIndicatorLoop share.ShareID ((d.Shares.getD []).map ShareDoc.share) = "N")
    (hf0 : client.faults client.calls = none) (hf1 : client.faults (client.calls + 1) = none)
    (hf2 : client.faults (client.calls + 2) = none)
    (hf3 : client.faults (client.calls + 3) = some e) :
    UpdateShareToSold email share client now =
      ((none, some (.driver e)),
        (UpdateBalance ((client.next.next.wrote (emailFilter email)
          (d.withBalance (d.Balance + share.PriceSold * Float64.ofInt share.Quantity))).next)
          email (share.PriceSold * Float64.ofInt share.Quantity) false true).2) := by
  have h1 : GetSoldIndicator email share.ShareID client = _ := GetSoldIndicator_ok hf0 hd
  rw [hN] at h1
  have h2 : UpdateBalance client.next email (share.PriceSold * Float64.ofInt share.Quantity) true false = _ :=
    UpdateBalance_ok _ true false (by simpa using hf1) (by simpa using hf2) (by simpa using hd)
  rw [newBalanceOf_credit] at h2
  have h3 : ∀ p u, UpdateOne (client.next.next.wrote (emailFilter email)
      (d.withBalance (d.Balance + share.PriceSold * Float64.ofInt share.Quantity))) p u = _ :=
    fun p u => UpdateOne_fault (by simpa using hf3)
  simp only [UpdateShareToSold, h1, if_true, h2, h3]

/-! ## Authentication and registration -/

theorem GetUserHash_ok {email : String} {c : Mongo} {d : UserDoc}
    (hf : c.faults c.calls = none) (hd : c.Users.find? (emailFilter email) = some d) :
    GetUserHash email c = ((d.Hash, none), c.next) := by
  simp [GetUserHash, FindOne_ok hf hd]

theorem GetUserHash_none {email : String} {c : Mongo}
    (hf : c.faults c.calls = none) (hd : c.Users.find? (emailFilter email) = none) :
    GetUserHash email c = (("", some .ErrNoDocuments), c.next) := by
  simp [GetUserHash, FindOne_none hf hd]

theorem AuthenticateUserOnDB_absent (bc : Bcrypt) {email : String} (password : String) {c : Mongo}
    (hf : c.faults c.calls = none) (hd : c.Users.find? (emailFilter email) = none) :
    AuthenticateUserOnDB bc email password c = (some .ErrNoDocuments, c.next) := by
  simp [AuthenticateUserOnDB, GetUserHash_none hf hd]

theorem AuthenticateUserOnDB_mismatch (bc : Bcrypt) {email : String} (password : String)
    {c : Mongo} {d : UserDoc} {err : GoError}
    (hf : c.faults c.calls = none) (hd : c.Users.find? (emailFilter email) = some d)
    (hc : bc.CompareHashAndPassword d.Hash password = some err) :
    AuthenticateUserOnDB bc email password c = (some err, c.next) := by
  simp [AuthenticateUserOnDB, GetUserHash_ok hf hd, hc]

/-! ## Claims -/

/-- C1: for an account with stored balance `B` and a buy request with `B < P * Q`
(the comparison and the product of line 207, in `float64`), `SaveBaughtShare` returns
an error and writes nothing, whatever the driver does (the documents and the log of
writes are as before, so the balance is still `B` and the share list is unchanged);
when the balance read succeeds the error is the insufficient-balance error and the
result is nil. -/
theorem buy_insufficient_funds (email : String) (share : Share) (client : Mongo)
    (objectID now : String) (d : UserDoc)
    (hd : client.Users.find? (emailFilter email) = some d)
    (hlt : d.Balance < share.PriceBaught * Float64.ofInt share.Quantity) :
    (SaveBaughtShare email share client objectID now).1.2 ≠ none ∧
    (SaveBaughtShare email share client objectID now).2.Users = client.Users ∧
    (SaveBaughtShare email share client objectID now).2.oplog = client.oplog ∧
    (client.faults client.calls = none →
      (SaveBaughtShare email share client objectID now).1 = (none, some .insufficientBalance)) := by
  cases hf : client.faults client.calls with
  | some e => simp [SaveBaughtShare, GetBalance_fault hf]
  | none => simp [SaveBaughtShare, GetBalance_ok hf hd, hlt]

/-- C1 at balance 10, quantity 5, price 5: the buy fails with the
insufficient-balance error, the balance stays 10 and no share is added.  Also at
balance 0.3, quantity 3, price 0.1, where the `float64` product is
0.30000000000000004: the buy fails. -/
theorem buy_insufficient_funds_witness :
    (SaveBaughtShare "a@x" (buyRequest 5 5) (exampleStore 10 none noFaults) "id1" "t1").1 =
      (none, some .insufficientBalance) ∧
    (SaveBaughtShare "a@x" (buyRequest 5 5) (exampleStore 10 none noFaults) "id1" "t1").2.Users =
      [exampleAccount 10 none] ∧
    (SaveBaughtShare "a@x" (buyRequest 5 5) (exampleStore 10 none noFaults) "id1" "t1").2.oplog = [] ∧
    (SaveBaughtShare "a@x" (buyRequest 3 (dec (1 / 10))) (exampleStore (dec (3 / 10)) none noFaults)
      "id1" "t1").1 = (none, some .insufficientBalance) := by
  have h := buy_insufficient_funds "a@x" (buyRequest 5 5) (exampleStore 10 none noFaults) "id1" "t1"
    (exampleAccount 10 none) (by decide!) (by decide!)
  have h' := buy_insufficient_funds "a@x" (buyRequest 3 (dec (1 / 10)))
    (exampleStore (dec (3 / 10)) none noFaults) "id1" "t1"
    (exampleAccount (dec (3 / 10)) none) (by decide!) (by decide!)
  exact ⟨h.2.2.2 rfl, h.2.1, h.2.2.1, h'.2.2.2 rfl⟩

/-- C2: for an account with balance `B` and share list `L` and a buy request with
`B ≥ P * Q` (in `float64`, as line 207 computes the product), when no driver call
fails `SaveBaughtShare` succeeds (a result, no error), the account's balance becomes
`B - P * Q` (the `float64` difference of line 344) by a single balance write, and its
share list becomes `L` followed by the one new share, which is the requested share
with `ShareID` the generated id, `SoldIndicator` "N" and `DateBaught` the current
time (`L` is empty when the list was absent); no other document changes. -/
theorem buy_success (email : String) (share : Share) (client : Mongo)
    (objectID now : String) (d : UserDoc)
    (hd : client.Users.find? (emailFilter email) = some d)
    (hge : share.PriceBaught * Float64.ofInt share.Quantity ≤ d.Balance)
    (hok : ∀ n, client.faults n = none) :
    (SaveBaughtShare email share client objectID now).1.2 = none ∧
    (SaveBaughtShare email share client objectID now).1.1 ≠ none ∧
    (SaveBaughtShare email share client objectID now).2.Users =
      replaceFirst (emailFilter email)
        { d with
          Balance := d.Balance - share.PriceBaught * Float64.ofInt share.Quantity,
          Shares := some (d.Shares.getD [] ++
            [⟨{ share with ShareID := objectID, SoldIndicator := "N", DateBaught := now }, none⟩]) }
        client.Users ∧
    (SaveBaughtShare email share client objectID now).2.oplog = client.oplog ++
      [{ d with Balance := d.Balance - share.PriceBaught * Float64.ofInt share.Quantity },
       { d with
          Balance := d.Balance - share.PriceBaught * Float64.ofInt share.Quantity,
          Shares := some (d.Shares.getD [] ++
            [⟨{ share with ShareID := objectID, SoldIndicator := "N", DateBaught := now }, none⟩]) }] := by
  obtain ⟨r, hr⟩ := SaveBaughtShare_ok objectID now hd (Float64.not_lt_of_le hge) hok
  have hp : emailFilter email
      (d.withBalance (d.Balance - share.PriceBaught * Float64.ofInt share.Quantity)) = true :=
    emailFilter_of_email (find?_emailFilter_email hd) rfl
  rw [hr]
  refine ⟨rfl, by simp, ?_, ?_⟩
  · simp only [Mongo.wrote_Users, Mongo.next_Users, replaceFirst_replaceFirst _ _ _ hp]
    rfl
  · simp only [Mongo.wrote_oplog, Mongo.next_oplog, List.append_assoc]
    rfl

/-- C2 at balance 100, quantity 10, price 5: the balance becomes 50 and the account
holds one share, with `SoldIndicator` "N".  Also at balance 1, quantity 10, price
0.1, where the `float64` product is exactly 1: the buy succeeds and the balance
becomes 0. -/
theorem buy_success_witness :
    (SaveBaughtShare "a@x" (buyRequest 10 5) (exampleStore 100 none noFaults) "id1" "t1").1.2 = none ∧
    (SaveBaughtShare "a@x" (buyRequest 10 5) (exampleStore 100 none noFaults) "id1" "t1").2.Users =
      [exampleAccount 50 (some [⟨{ buyRequest 10 5 with
        ShareID := "id1", SoldIndicator := "N", DateBaught := "t1" }, none⟩])] ∧
    (SaveBaughtShare "a@x" (buyRequest 10 (dec (1 / 10))) (exampleStore 1 none noFaults)
      "id1" "t1").1.2 = none ∧
    (SaveBaughtShare "a@x" (buyRequest 10 (dec (1 / 10))) (exampleStore 1 none noFaults)
      "id1" "t1").2.Users.map UserDoc.Balance = [0] := by
  have h := buy_success "a@x" (buyRequest 10 5) (exampleStore 100 none noFaults) "id1" "t1"
    (exampleAccount 100 none) (by decide!) (by decide!) (fun _ => rfl)
  have h' := buy_success "a@x" (buyRequest 10 (dec (1 / 10))) (exampleStore 1 none noFaults)
    "id1" "t1" (exampleAccount 1 none) (by decide!) (by decide!) (fun _ => rfl)
  refine ⟨h.1, ?_, h'.1, ?_⟩
  · rw [h.2.2.1]
    decide!
  · rw [h'.2.2.1]
    decide!

/-- C3, as stated, fails.  With stored balance -5, a request of quantity 1 at price
-10 (cost -10, so the balance is not below the cost) and a failing share write (the
fifth driver call), Buy writes the balance 5 and then, compensating, the balance -5.
And with a stored balance NaN (the comparison of line 207 is false on NaN) a Buy of
1 at price 5 writes the balance NaN, which is not `≥ 0`. -/
theorem buy_writes_negative_balance :
    (SaveBaughtShare "a@x" (buyRequest 1 (-10)) (exampleStore (-5) none (faultAt 4))
      "id1" "t1").2.oplog.map UserDoc.Balance = [5, -5] ∧
    (¬ ∀ w ∈ (SaveBaughtShare "a@x" (buyRequest 1 (-10)) (exampleStore (-5) none (faultAt 4))
      "id1" "t1").2.oplog, 0 ≤ w.Balance) ∧
    (SaveBaughtShare "a@x" (buyRequest 1 5) (exampleStore .nan none noFaults)
      "id1" "t1").2.Users.map UserDoc.Balance = [.nan] ∧
    ¬ (0 : Float64) ≤ .nan := by
  decide!

/-- C3, amended: in the sequential single-request model, for every account state,
every buy request (any price, any quantity) and every fault schedule, each document
Buy writes carries either the debited balance `B - P * Q`, which is `≥ 0` unless
the stored balance or the cost is NaN or both are the same infinity, or the debited
balance credited back, `(B - P * Q) + P * Q` (the compensating credit after a failed
share write); all operations are those of `float64`. -/
theorem buy_balance_writes (email : String) (share : Share) (client : Mongo)
    (objectID now : String) (d : UserDoc)
    (hd : client.Users.find? (emailFilter email) = some d) :
    ∃ ws, (SaveBaughtShare email share client objectID now).2.oplog = client.oplog ++ ws ∧
      ∀ w ∈ ws,
        (w.Balance = d.Balance - share.PriceBaught * Float64.ofInt share.Quantity ∧
          (0 ≤ w.Balance ∨ d.Balance = .nan ∨
            share.PriceBaught * Float64.ofInt share.Quantity = .nan ∨
            ∃ s, d.Balance = .inf s ∧
              share.PriceBaught * Float64.ofInt share.Quantity = .inf s)) ∨
        w.Balance = (d.Balance - share.PriceBaught * Float64.ofInt share.Quantity)
          + share.PriceBaught * Float64.ofInt share.Quantity := by
  rcases SaveBaughtShare_oplog share objectID now hd with h | ⟨hlt, h | h | h⟩
  · exact ⟨[], by simpa using h, by simp⟩
  · refine ⟨_, h, fun w hw => ?_⟩
    simp only [List.mem_singleton] at hw
    subst hw
    exact Or.inl ⟨rfl, Float64.sub_nonneg_or_special hlt⟩
  · refine ⟨_, h, fun w hw => ?_⟩
    simp only [List.mem_cons, List.mem_singleton, List.not_mem_nil, or_false] at hw
    rcases hw with rfl | rfl
    · exact Or.inl ⟨rfl, Float64.sub_nonneg_or_special hlt⟩
    · exact Or.inl ⟨rfl, Float64.sub_nonneg_or_special hlt⟩
  · refine ⟨_, h, fun w hw => ?_⟩
    simp only [List.mem_cons, List.mem_singleton, List.not_mem_nil, or_false] at hw
    rcases hw with rfl | rfl
    · exact Or.inl ⟨rfl, Float64.sub_nonneg_or_special hlt⟩
    · exact Or.inr rfl

/-- C3, amended, at balance 0.9, quantity 1, price 0.2 with a failing share write:
Buy writes the balance 0.7, which is `≥ 0`, and then, compensating, the balance
0.8999999999999999. -/
theorem buy_balance_writes_witness :
    (∃ ws, (SaveBaughtShare "a@x" (buyRequest 1 (dec (2 / 10)))
        (exampleStore (dec (9 / 10)) none (faultAt 4)) "id1" "t1").2.oplog = [] ++ ws ∧
      ∀ w ∈ ws,
        (w.Balance = dec (9 / 10) - dec (2 / 10) * Float64.ofInt 1 ∧
          (0 ≤ w.Balance ∨ dec (9 / 10) = .nan ∨ dec (2 / 10) * Float64.ofInt 1 = .nan ∨
            ∃ s, dec (9 / 10) = .inf s ∧ dec (2 / 10) * Float64.ofInt 1 = .inf s)) ∨
        w.Balance = (dec (9 / 10) - dec (2 / 10) * Float64.ofInt 1)
          + dec (2 / 10) * Float64.ofInt 1) ∧
    (SaveBaughtShare "a@x" (buyRequest 1 (dec (2 / 10)))
        (exampleStore (dec (9 / 10)) none (faultAt 4)) "id1" "t1").2.oplog.map UserDoc.Balance =
      [dec (7 / 10), dec (8999999999999999 / 10 ^ 16)] ∧
    (0 : Float64) ≤ dec (7 / 10) :=
  ⟨buy_balance_writes "a@x" (buyRequest 1 (dec (2 / 10)))
    (exampleStore (dec (9 / 10)) none (faultAt 4)) "id1" "t1"
    (exampleAccount (dec (9 / 10)) none) (by decide!), by decide!, by decide!⟩

/-- C4, as stated, fails: from balance 100, after buying 10 at price 5 (balance 50), a
sell request that names the created share and gives `priceSold` 8 credits
`priceSold` times the quantity carried by the request, not the 10 of the lot: with
the quantity left out (0) the balance stays 50, with quantity 3 it becomes 74; in
neither case 130. -/
theorem sell_credits_request_quantity :
    (UpdateShareToSold "a@x" (sellRequest "id1" 0 8)
      (SaveBaughtShare "a@x" (buyRequest 10 5) (exampleStore 100 none noFaults) "id1" "t1").2
      "t2").1.2 = none ∧
    (UpdateShareToSold "a@x" (sellRequest "id1" 0 8)
      (SaveBaughtShare "a@x" (buyRequest 10 5) (exampleStore 100 none noFaults) "id1" "t1").2
      "t2").2.Users.map UserDoc.Balance = [50] ∧
    (UpdateShareToSold "a@x" (sellRequest "id1" 3 8)
      (SaveBaughtShare "a@x" (buyRequest 10 5) (exampleStore 100 none noFaults) "id1" "t1").2
      "t2").1.2 = none ∧
    (UpdateShareToSold "a@x" (sellRequest "id1" 3 8)
      (SaveBaughtShare "a@x" (buyRequest 10 5) (exampleStore 100 none noFaults) "id1" "t1").2
      "t2").2.Users.map UserDoc.Balance = [74] := by
  decide!

/-- C4, amended: for an account with balance `B` and `B ≥ P * Q`, after a Buy of
quantity `Q` at price `P` under a fresh identifier and then a Sell whose request names
that identifier, gives `priceSold` `P2` and carries quantity `Q2` (no driver call
failing), the Sell succeeds, the balance is `(B - P * Q) + P2 * Q2` as `float64`
computes it, and the created share is stored with `SoldIndicator` "Y" (and
`PriceSold` `P2`, `DateSold` the time of the sale, `ownedOrSold` "Sold"); every other
share and document is unchanged. -/
theorem buy_then_sell (email : String) (share sell : Share) (client : Mongo)
    (objectID now now2 : String) (d : UserDoc)
    (hd : client.Users.find? (emailFilter email) = some d)
    (hge : share.PriceBaught * Float64.ofInt share.Quantity ≤ d.Balance)
    (hok : ∀ n, client.faults n = none)
    (hfresh : ∀ s ∈ d.Shares.getD [], s.share.ShareID ≠ objectID)
    (hid : sell.ShareID = objectID) :
    (UpdateShareToSold email sell
      (SaveBaughtShare email share client objectID now).2 now2).1.2 = none ∧
    (UpdateShareToSold email sell
      (SaveBaughtShare email share client objectID now).2 now2).2.Users =
      replaceFirst (emailFilter email)
        { d with
          Balance := (d.Balance - share.PriceBaught * Float64.ofInt share.Quantity)
            + sell.PriceSold * Float64.ofInt sell.Quantity,
          Shares := some (d.Shares.getD [] ++
            [⟨{ share with
                ShareID := objectID, SoldIndicator := "Y", DateBaught := now,
                DateSold := now2, PriceSold := sell.PriceSold }, some "Sold"⟩]) }
        client.Users := by
  obtain ⟨r, hr⟩ := SaveBaughtShare_ok objectID now hd (Float64.not_lt_of_le hge) hok
  have hem := find?_emailFilter_email hd
  have hp1 : emailFilter email
      (d.withBalance (d.Balance - share.PriceBaught * Float64.ofInt share.Quantity)) = true :=
    emailFilter_of_email hem rfl
  have hp2 : emailFilter email
      ((d.withBalance (d.Balance - share.PriceBaught * Float64.ofInt share.Quantity)).withShares
        (d.Shares.getD [] ++ [(boughtShare share objectID now).toDoc])) = true :=
    emailFilter_of_email hem rfl
  rw [hr]
  have hU : ((client.next.next.wrote (emailFilter email)
      (d.withBalance (d.Balance - share.PriceBaught * Float64.ofInt share.Quantity))).next.wrote
      (emailFilter email)
      ((d.withBalance (d.Balance - share.PriceBaught * Float64.ofInt share.Quantity)).withShares
        (d.Shares.getD [] ++ [(boughtShare share objectID now).toDoc]))).Users =
      replaceFirst (emailFilter email)
        ((d.withBalance (d.Balance - share.PriceBaught * Float64.ofInt share.Quantity)).withShares
          (d.Shares.getD [] ++ [(boughtShare share objectID now).toDoc])) client.Users := by
    simp only [Mongo.wrote_Users, Mongo.next_Users, replaceFirst_replaceFirst _ _ _ hp1]
  have hd2 := find?_replaceFirst (emailFilter email) _ hp2 _ _ hd
  rw [← hU] at hd2
  have hN : soldIndicatorLoop sell.ShareID
      ((d.Shares.getD [] ++ [(boughtShare share objectID now).toDoc]).map ShareDoc.share) = "N" := by
    rw [List.map_append, List.map_singleton, soldIndicatorLoop_append]
    simp [boughtShare, Share.toDoc, hid]
  obtain ⟨r2, hr2⟩ := UpdateShareToSold_ok sell now2 hd2 rfl hN
    (by simpa using hok)
  rw [hr2]
  refine ⟨rfl, ?_⟩
  have hp3 : emailFilter email
      (((d.withBalance (d.Balance - share.PriceBaught * Float64.ofInt share.Quantity)).withShares
        (d.Shares.getD [] ++ [(boughtShare share objectID now).toDoc])).withBalance
        (d.Balance - share.PriceBaught * Float64.ofInt share.Quantity
          + sell.PriceSold * Float64.ofInt sell.Quantity)) = true :=
    emailFilter_of_email hem rfl
  have hset := setFirstShare_append_fresh sell.ShareID (markSold now2 sell.PriceSold)
    (boughtShare share objectID now).toDoc (by simp [boughtShare, Share.toDoc, hid])
    (d.Shares.getD []) (by simpa [hid] using hfresh)
  simp only [Mongo.wrote_Users, Mongo.next_Users, UserDoc.withShares_Balance,
    UserDoc.withBalance_Balance, replaceFirst_replaceFirst _ _ _ hp1,
    replaceFirst_replaceFirst _ _ _ hp2, replaceFirst_replaceFirst _ _ _ hp3, hset]
  rfl

/-- C4, amended, at balance 100: Buy of 10 at price 5, then Sell of the created share
with quantity 10 at price 8, gives balance 130 and `SoldIndicator` "Y". -/
theorem buy_then_sell_witness :
    (UpdateShareToSold "a@x" (sellRequest "id1" 10 8)
      (SaveBaughtShare "a@x" (buyRequest 10 5) (exampleStore 100 none noFaults) "id1" "t1").2
      "t2").1.2 = none ∧
    (UpdateShareToSold "a@x" (sellRequest "id1" 10 8)
      (SaveBaughtShare "a@x" (buyRequest 10 5) (exampleStore 100 none noFaults) "id1" "t1").2
      "t2").2.Users =
      [exampleAccount 130 (some [⟨{ buyRequest 10 5 with
        ShareID := "id1", SoldIndicator := "Y", DateBaught := "t1", DateSold := "t2",
        PriceSold := 8 }, some "Sold"⟩])] := by
  have h := buy_then_sell "a@x" (buyRequest 10 5) (sellRequest "id1" 10 8)
    (exampleStore 100 none noFaults) "id1" "t1" "t2" (exampleAccount 100 none) (by decide!)
    (by decide!) (fun _ => rfl) (by simp [exampleAccount]) rfl
  refine ⟨h.1, ?_⟩
  rw [h.2]
  decide!

/-- C5: a share can only be sold once.  For an account whose share list holds exactly
one share `s` with the requested identifier: if `s` has `SoldIndicator` "Y", then
`UpdateShareToSold` returns an error and writes nothing, whatever the driver does
(documents and log of writes as before), and the error is the one the code has for a
share that is not open (line 291) when the lookup succeeds; and if `s` is open and a
Sell of it succeeds, a second Sell of the same identifier on the resulting store
fails with that error and changes nothing. -/
theorem sell_only_once (email : String) (sell : Share) (client : Mongo) (now : String)
    (d : UserDoc) (l : List ShareDoc) (s : ShareDoc)
    (hd : client.Users.find? (emailFilter email) = some d)
    (hl : d.Shares = some l)
    (hone : l.filter (fun x => x.share.ShareID == sell.ShareID) = [s]) :
    (s.share.SoldIndicator = "Y" →
      (UpdateShareToSold email sell client now).1.2 ≠ none ∧
      (UpdateShareToSold email sell client now).2.Users = client.Users ∧
      (UpdateShareToSold email sell client now).2.oplog = client.oplog ∧
      (client.faults client.calls = none →
        (UpdateShareToSold email sell client now).1 = (some ⟨0, 0⟩, some .notOwned))) ∧
    (s.share.SoldIndicator = "N" → (∀ n, client.faults n = none) →
      (UpdateShareToSold email sell client now).1.2 = none ∧
      ∀ (sell2 : Share) (now2 : String), sell2.ShareID = sell.ShareID →
        (UpdateShareToSold email sell2 (UpdateShareToSold email sell client now).2 now2).1 =
          (some ⟨0, 0⟩, some .notOwned) ∧
        (UpdateShareToSold email sell2 (UpdateShareToSold email sell client now).2 now2).2.Users =
          (UpdateShareToSold email sell client now).2.Users ∧
        (UpdateShareToSold email sell2 (UpdateShareToSold email sell client now).2 now2).2.oplog =
          (UpdateShareToSold email sell client now).2.oplog) := by
  have hloop := soldIndicatorLoop_of_unique hone
  constructor
  · intro hY
    exact UpdateShareToSold_not_open sell client now hd
      (by rw [hl, Option.getD_some, hloop, hY]; decide)
  · intro hN hok
    obtain ⟨r, hr⟩ := UpdateShareToSold_ok sell now hd hl (by rw [hloop, hN]) hok
    rw [hr]
    refine ⟨rfl, ?_⟩
    intro sell2 now2 hid
    have hem := find?_emailFilter_email hd
    have hp1 : emailFilter email
        (d.withBalance (d.Balance + sell.PriceSold * Float64.ofInt sell.Quantity)) = true :=
      emailFilter_of_email hem rfl
    have hp2 : emailFilter email
        ((d.withBalance (d.Balance + sell.PriceSold * Float64.ofInt sell.Quantity)).withShares
          (setFirstShare sell.ShareID (markSold now sell.PriceSold) l)) = true :=
      emailFilter_of_email hem rfl
    have hd2 := find?_replaceFirst (emailFilter email) _ hp2 _ _
      (find?_replaceFirst (emailFilter email) _ hp1 _ _ hd)
    have hone2 : (setFirstShare sell.ShareID (markSold now sell.PriceSold) l).filter
        (fun x => x.share.ShareID == sell2.ShareID) = [markSold now sell.PriceSold s] := by
      rw [hid, filter_setFirstShare _ _ (markSold_ShareID now sell.PriceSold), hone]
    have hloop2 := soldIndicatorLoop_of_unique hone2
    have h := UpdateShareToSold_not_open sell2
      ((client.next.next.wrote (emailFilter email)
        (d.withBalance (d.Balance + sell.PriceSold * Float64.ofInt sell.Quantity))).wrote
        (emailFilter email)
        ((d.withBalance (d.Balance + sell.PriceSold * Float64.ofInt sell.Quantity)).withShares
          (setFirstShare sell.ShareID (markSold now sell.PriceSold) l)))
      now2 (by simpa using hd2)
      (by rw [UserDoc.withShares_Shares, Option.getD_some, hloop2]; simp [markSold])
    exact ⟨h.2.2.2 (by simpa using hok _), h.2.1, h.2.2.1⟩

/-- C5 on concrete stores: selling the lot `id1` that is already "Y" fails with the
error of line 291 and leaves the store as it was; selling the open lot `id1` succeeds
once and the second attempt fails. -/
theorem sell_only_once_witness :
    ((UpdateShareToSold "a@x" (sellRequest "id1" 10 8)
        (exampleStore 50 (some [exampleLot "id1" "Y"]) noFaults) "t2").1 =
        (some ⟨0, 0⟩, some .notOwned) ∧
      (UpdateShareToSold "a@x" (sellRequest "id1" 10 8)
        (exampleStore 50 (some [exampleLot "id1" "Y"]) noFaults) "t2").2.Users =
        [exampleAccount 50 (some [exampleLot "id1" "Y"])]) ∧
    ((UpdateShareToSold "a@x" (sellRequest "id1" 10 8)
        (exampleStore 50 (some [exampleLot "id1" "N"]) noFaults) "t2").1.2 = none ∧
      (UpdateShareToSold "a@x" (sellRequest "id1" 10 8)
        (UpdateShareToSold "a@x" (sellRequest "id1" 10 8)
          (exampleStore 50 (some [exampleLot "id1" "N"]) noFaults) "t2").2 "t3").1 =
        (some ⟨0, 0⟩, some .notOwned)) := by
  have hY := (sell_only_once "a@x" (sellRequest "id1" 10 8)
    (exampleStore 50 (some [exampleLot "id1" "Y"]) noFaults) "t2"
    (exampleAccount 50 (some [exampleLot "id1" "Y"])) [exampleLot "id1" "Y"] (exampleLot "id1" "Y")
    (by decide!) rfl (by decide!)).1 rfl
  have hN := (sell_only_once "a@x" (sellRequest "id1" 10 8)
    (exampleStore 50 (some [exampleLot "id1" "N"]) noFaults) "t2"
    (exampleAccount 50 (some [exampleLot "id1" "N"])) [exampleLot "id1" "N"] (exampleLot "id1" "N")
    (by decide!) rfl (by decide!)).2 rfl (fun _ => rfl)
  exact ⟨⟨hY.2.2.2 rfl, hY.2.1⟩, hN.1, (hN.2 (sellRequest "id1" 10 8) "t3" rfl).1⟩

/-- C6, as stated, fails: the outcome of a Sell that names an identifier the account
does not hold (`id9`) is the very outcome of a Sell of a share that is already sold:
the same result and the same error value, whose text is "Unable to complete the
transaction. User does not own the shares."; there is no separate error kind. -/
theorem share_not_found_same_error_as_already_sold :
    (UpdateShareToSold "a@x" (sellRequest "id9" 10 8)
      (exampleStore 50 (some [exampleLot "id1" "N"]) noFaults) "t2").1 =
    (UpdateShareToSold "a@x" (sellRequest "id1" 10 8)
      (exampleStore 50 (some [exampleLot "id1" "Y"]) noFaults) "t2").1 ∧
    ((UpdateShareToSold "a@x" (sellRequest "id9" 10 8)
      (exampleStore 50 (some [exampleLot "id1" "N"]) noFaults) "t2").1.2.map GoError.Error) =
      some "Unable to complete the transaction. User does not own the shares." := by
  decide!

/-- C6, amended: for an existing account whose share list holds no share with the
requested identifier (the list may be empty or absent), `UpdateShareToSold` returns
an error and writes nothing, whatever the driver does (documents and log of writes as
before); when the lookup succeeds the error is the one of line 291, the same error
value that a share already sold yields. -/
theorem sell_share_not_found (email : String) (sell : Share) (client : Mongo) (now : String)
    (d : UserDoc)
    (hd : client.Users.find? (emailFilter email) = some d)
    (habsent : ∀ x ∈ d.Shares.getD [], x.share.ShareID ≠ sell.ShareID) :
    (UpdateShareToSold email sell client now).1.2 ≠ none ∧
    (UpdateShareToSold email sell client now).2.Users = client.Users ∧
    (UpdateShareToSold email sell client now).2.oplog = client.oplog ∧
    (client.faults client.calls = none →
      (UpdateShareToSold email sell client now).1 = (some ⟨0, 0⟩, some .notOwned)) :=
  UpdateShareToSold_not_open sell client now hd
    (by rw [soldIndicatorLoop_of_absent habsent]; decide)

/-- C6, amended, on an account without a share list: the Sell fails with the error of
line 291 and the store is as before. -/
theorem sell_share_not_found_witness :
    (UpdateShareToSold "a@x" (sellRequest "id1" 10 8) (exampleStore 50 none noFaults) "t2").1 =
      (some ⟨0, 0⟩, some .notOwned) ∧
    (UpdateShareToSold "a@x" (sellRequest "id1" 10 8) (exampleStore 50 none noFaults) "t2").2.Users =
      [exampleAccount 50 none] := by
  have h := sell_share_not_found "a@x" (sellRequest "id1" 10 8) (exampleStore 50 none noFaults) "t2"
    (exampleAccount 50 none) (by decide!) (by simp [exampleAccount])
  exact ⟨h.2.2.2 rfl, h.2.1⟩

/-- C7, as stated, fails: the compensation computes in `float64` and need not give
back the balance before the call.  From balance 0.3, a Sell of quantity 1 at price
0.1 whose share write (fourth driver call) fails, and whose compensating debit
succeeds, leaves the balance 0.30000000000000004; from balance 0.9, a Buy of 1 at
price 0.2 whose share write (fifth driver call) fails leaves 0.8999999999999999. -/
theorem compensation_leaves_rounded_balance :
    (UpdateShareToSold "a@x" (sellRequest "id1" 1 (dec (1 / 10)))
      (exampleStore (dec (3 / 10)) (some [exampleLot "id1" "N"]) (faultAt 3)) "t2").1 =
      (none, some (.driver "context deadline exceeded")) ∧
    (UpdateShareToSold "a@x" (sellRequest "id1" 1 (dec (1 / 10)))
      (exampleStore (dec (3 / 10)) (some [exampleLot "id1" "N"]) (faultAt 3)) "t2").2.Users =
      [exampleAccount (dec (30000000000000004 / 10 ^ 17)) (some [exampleLot "id1" "N"])] ∧
    dec (30000000000000004 / 10 ^ 17) ≠ dec (3 / 10) ∧
    (SaveBaughtShare "a@x" (buyRequest 1 (dec (2 / 10)))
      (exampleStore (dec (9 / 10)) none (faultAt 4)) "id1" "t1").1 =
      (none, some (.driver "context deadline exceeded")) ∧
    (SaveBaughtShare "a@x" (buyRequest 1 (dec (2 / 10)))
      (exampleStore (dec (9 / 10)) none (faultAt 4)) "id1" "t1").2.Users =
      [exampleAccount (dec (8999999999999999 / 10 ^ 16)) none] ∧
    dec (8999999999999999 / 10 ^ 16) ≠ dec (9 / 10) := by
  decide!

/-- C7, amended: compensation on a failed share write, for Buy and for Sell alike.
When the balance adjustment succeeded (every driver call before the share write
succeeds; for Buy the guard of line 207 passes, for Sell the indicator found is "N")
and the share-list write fails with error `e`, the error returned is the share
write's own error `e`, whatever the compensation does; and when the compensating
balance write succeeds, the store is the one before the call except for the
account's balance, which is `(B - c) + c` for Buy and `(B + p) - p` for Sell in
`float64`: the share list is unchanged, and the balance is the balance before the
call whenever that `float64` result is `B`. -/
theorem compensation_after_failed_share_write (email : String) (share : Share) (client : Mongo)
    (objectID now : String) (d : UserDoc) (e : String)
    (hd : client.Users.find? (emailFilter email) = some d)
    (hf0 : client.faults client.calls = none) (hf1 : client.faults (client.calls + 1) = none)
    (hf2 : client.faults (client.calls + 2) = none) :
    (¬ d.Balance < share.PriceBaught * Float64.ofInt share.Quantity →
      client.faults (client.calls + 3) = none → client.faults (client.calls + 4) = some e →
      (SaveBaughtShare email share client objectID now).1 = (none, some (.driver e)) ∧
      (client.faults (client.calls + 5) = none → client.faults (client.calls + 6) = none →
        (SaveBaughtShare email share client objectID now).2.Users =
          replaceFirst (emailFilter email)
            { d with Balance := (d.Balance - share.PriceBaught * Float64.ofInt share.Quantity)
                + share.PriceBaught * Float64.ofInt share.Quantity }
            client.Users ∧
        ((d.Balance - share.PriceBaught * Float64.ofInt share.Quantity)
            + share.PriceBaught * Float64.ofInt share.Quantity = d.Balance →
          (SaveBaughtShare email share client objectID now).2.Users = client.Users))) ∧
    (soldIndicatorLoop share.ShareID ((d.Shares.getD []).map ShareDoc.share) = "N" →
      client.faults (client.calls + 3) = some e →
      (UpdateShareToSold email share client now).1 = (none, some (.driver e)) ∧
      (client.faults (client.calls + 4) = none → client.faults (client.calls + 5) = none →
        (UpdateShareToSold email share client now).2.Users =
          replaceFirst (emailFilter email)
            { d with Balance := (d.Balance + share.PriceSold * Float64.ofInt share.Quantity)
                - share.PriceSold * Float64.ofInt share.Quantity }
            client.Users ∧
        ((d.Balance + share.PriceSold * Float64.ofInt share.Quantity)
            - share.PriceSold * Float64.ofInt share.Quantity = d.Balance →
          (UpdateShareToSold email share client now).2.Users = client.Users))) := by
  constructor
  · intro hnlt hf3 hf4
    rw [SaveBaughtShare_shareWriteFault share objectID now hd hnlt hf0 hf1 hf2 hf3 hf4]
    refine ⟨rfl, fun hf5 hf6 => ?_⟩
    have hU := Users_after_compensation (share.PriceBaught * Float64.ofInt share.Quantity)
      true false
      ((client.next.next.wrote (emailFilter email)
        (d.withBalance (d.Balance - share.PriceBaught * Float64.ofInt share.Quantity))).next.next)
      (d.Balance - share.PriceBaught * Float64.ofInt share.Quantity) hd
      (by simp only [Mongo.wrote_Users, Mongo.next_Users]) (by simpa using hf5)
      (by simpa using hf6)
    rw [newBalanceOf_credit] at hU
    refine ⟨hU, fun heq => ?_⟩
    rw [hU, heq, UserDoc.withBalance_self, replaceFirst_self _ _ _ hd]
  · intro hN hf3
    rw [UpdateShareToSold_shareWriteFault share now hd hN hf0 hf1 hf2 hf3]
    refine ⟨rfl, fun hf4 hf5 => ?_⟩
    have hU := Users_after_compensation (share.PriceSold * Float64.ofInt share.Quantity)
      false true
      ((client.next.next.wrote (emailFilter email)
        (d.withBalance (d.Balance + share.PriceSold * Float64.ofInt share.Quantity))).next)
      (d.Balance + share.PriceSold * Float64.ofInt share.Quantity) hd
      (by simp only [Mongo.wrote_Users, Mongo.next_Users]) (by simpa using hf4)
      (by simpa using hf5)
    rw [newBalanceOf_debit] at hU
    refine ⟨hU, fun heq => ?_⟩
    rw [hU, heq, UserDoc.withBalance_self, replaceFirst_self _ _ _ hd]

/-- C7, amended, on concrete stores: a Buy of 10 at price 5 from balance 100 whose
share write (fifth driver call) fails, and a Sell of the open lot `id1` (10 at price
8, balance 50) whose share write (fourth driver call) fails, both return that failure
and, the `float64` operations being exact here, leave the store as it was. -/
theorem compensation_after_failed_share_write_witness :
    ((SaveBaughtShare "a@x" (buyRequest 10 5) (exampleStore 100 none (faultAt 4)) "id1" "t1").1 =
        (none, some (.driver "context deadline exceeded")) ∧
      (SaveBaughtShare "a@x" (buyRequest 10 5) (exampleStore 100 none (faultAt 4)) "id1" "t1").2.Users =
        [exampleAccount 100 none]) ∧
    ((UpdateShareToSold "a@x" (sellRequest "id1" 10 8)
        (exampleStore 50 (some [exampleLot "id1" "N"]) (faultAt 3)) "t2").1 =
        (none, some (.driver "context deadline exceeded")) ∧
      (UpdateShareToSold "a@x" (sellRequest "id1" 10 8)
        (exampleStore 50 (some [exampleLot "id1" "N"]) (faultAt 3)) "t2").2.Users =
        [exampleAccount 50 (some [exampleLot "id1" "N"])]) := by
  have hb := (compensation_after_failed_share_write "a@x" (buyRequest 10 5)
    (exampleStore 100 none (faultAt 4)) "id1" "t1" (exampleAccount 100 none)
    "context deadline exceeded" (by decide!) rfl rfl rfl).1
    (by decide!) rfl rfl
  have hs := (compensation_after_failed_share_write "a@x" (sellRequest "id1" 10 8)
    (exampleStore 50 (some [exampleLot "id1" "N"]) (faultAt 3)) "id1" "t2"
    (exampleAccount 50 (some [exampleLot "id1" "N"])) "context deadline exceeded"
    (by decide!) rfl rfl rfl).2 (by decide!) rfl
  exact ⟨⟨hb.1, (hb.2 rfl rfl).2 (by decide!)⟩, hs.1, (hs.2 rfl rfl).2 (by decide!)⟩

/-- C8: `UpdateBalance` on current balance `c` and amount `a`.  If reading the
current balance fails, the call returns that error and writes nothing.  Otherwise,
when the write succeeds, a credit (`toAdd = true`, `toDeduct = false`) overwrites the
stored balance with `c + a` and a debit (`toAdd = false`, `toDeduct = true`) with
`c - a` (the `float64` sum and difference of lines 341 and 344), for every `c` and
`a`: no check on the sign of the result. -/
theorem adjust_balance (client : Mongo) (email : String) (a : Float64) :
    (∀ err toAdd toDeduct, (GetBalance email client).1.2 = some err →
      (UpdateBalance client email a toAdd toDeduct).1 = some err ∧
      (UpdateBalance client email a toAdd toDeduct).2.Users = client.Users ∧
      (UpdateBalance client email a toAdd toDeduct).2.oplog = client.oplog) ∧
    (∀ d, client.Users.find? (emailFilter email) = some d →
      client.faults client.calls = none → client.faults (client.calls + 1) = none →
      ((UpdateBalance client email a true false).1 = none ∧
        (UpdateBalance client email a true false).2.Users =
          replaceFirst (emailFilter email) { d with Balance := d.Balance + a } client.Users ∧
        (UpdateBalance client email a true false).2.oplog =
          client.oplog ++ [{ d with Balance := d.Balance + a }]) ∧
      ((UpdateBalance client email a false true).1 = none ∧
        (UpdateBalance client email a false true).2.Users =
          replaceFirst (emailFilter email) { d with Balance := d.Balance - a } client.Users ∧
        (UpdateBalance client email a false true).2.oplog =
          client.oplog ++ [{ d with Balance := d.Balance - a }])) := by
  constructor
  · intro err toAdd toDeduct h
    cases hg : GetBalance email client with
    | mk r c1 =>
      obtain ⟨b, oe⟩ := r
      rw [hg] at h
      simp only at h
      subst h
      have hc1 : c1 = client.next := by
        have := GetBalance_snd email client
        rw [hg] at this
        exact this
      subst hc1
      simp [UpdateBalance, hg]
  · intro d hd hf0 hf1
    rw [UpdateBalance_ok a true false hf0 hf1 hd, UpdateBalance_ok a false true hf0 hf1 hd,
      newBalanceOf_credit, newBalanceOf_debit]
    exact ⟨⟨rfl, rfl, rfl⟩, rfl, rfl, rfl⟩

/-- C8 on concrete stores: from balance 10 a credit of 25 stores 35 and a debit of 25
stores -15; from balance 0.1 a credit of 0.2 stores the `float64` sum
0.30000000000000004; on a store without the account the call returns the lookup
error `mongo.ErrNoDocuments` and writes nothing. -/
theorem adjust_balance_witness :
    (UpdateBalance (exampleStore 10 none noFaults) "a@x" 25 true false).2.Users =
      [exampleAccount 35 none] ∧
    (UpdateBalance (exampleStore 10 none noFaults) "a@x" 25 false true).2.Users =
      [exampleAccount (-15) none] ∧
    (UpdateBalance (exampleStore (dec (1 / 10)) none noFaults) "a@x" (dec (2 / 10)) true false).2.Users =
      [exampleAccount (dec (30000000000000004 / 10 ^ 17)) none] ∧
    (UpdateBalance emptyStore "a@x" 25 false true).1 = some .ErrNoDocuments ∧
    (UpdateBalance emptyStore "a@x" 25 false true).2.oplog = [] := by
  have h := (adjust_balance (exampleStore 10 none noFaults) "a@x" 25).2
    (exampleAccount 10 none) (by decide!) rfl rfl
  have h' := (adjust_balance (exampleStore (dec (1 / 10)) none noFaults) "a@x" (dec (2 / 10))).2
    (exampleAccount (dec (1 / 10)) none) (by decide!) rfl rfl
  have h0 := (adjust_balance emptyStore "a@x" 25).1 .ErrNoDocuments false true rfl
  refine ⟨?_, ?_, ?_, h0.1, h0.2.2⟩
  · rw [h.1.2.1]; decide!
  · rw [h.2.2.1]; decide!
  · rw [h'.1.2.1]; decide!

/-- C9, as stated, fails: for the email `a@x` and the password `wrong`, the failure
on a store without the account and the failure on a store where the account exists
with another password differ, in the error `AuthenticateUserOnDB` returns and in the
message of the authenticate and delete handlers (the status is 401 in both). -/
theorem authentication_failures_distinguishable :
    (AuthenticateUserOnDB exampleBcrypt "a@x" "wrong" emptyStore).1 = some .ErrNoDocuments ∧
    (AuthenticateUserOnDB exampleBcrypt "a@x" "wrong" (exampleStore 0 none noFaults)).1 =
      some .ErrMismatchedHashAndPassword ∧
    (AuthenticateUser exampleBcrypt emptyStore "a@x" "wrong").1 =
      ⟨401, .text "Unable to authenticate: mongo: no documents in result\n"⟩ ∧
    (AuthenticateUser exampleBcrypt (exampleStore 0 none noFaults) "a@x" "wrong").1 =
      ⟨401, .text ("Unable to authenticate: crypto/bcrypt: hashedPassword is not the hash of " ++
        "the given password\n")⟩ ∧
    (AuthenticateUser exampleBcrypt emptyStore "a@x" "wrong").1 ≠
      (AuthenticateUser exampleBcrypt (exampleStore 0 none noFaults) "a@x" "wrong").1 ∧
    (DeleteUser exampleBcrypt emptyStore "a@x" "wrong").1 ≠
      (DeleteUser exampleBcrypt (exampleStore 0 none noFaults) "a@x" "wrong").1 := by
  decide

/-- C9, amended: for every non-empty email and password and every store whose lookup
call succeeds, when the account is absent `AuthenticateUserOnDB` returns the lookup
error `mongo.ErrNoDocuments`, and when the account exists but bcrypt rejects the
password with error `err` it returns `err`; in both cases the authenticate and the
delete handler answer with status 401 and the message "Unable to authenticate: "
followed by the text of that error, and the store's documents are unchanged.  The
two failures have the same status; their messages agree only if the error texts do. -/
theorem authentication_failure_report (bc : Bcrypt) (client : Mongo) (email password : String)
    (hemail : email ≠ "") (hpassword : password ≠ "")
    (hf : client.faults client.calls = none) :
    (client.Users.find? (emailFilter email) = none →
      (AuthenticateUserOnDB bc email password client).1 = some .ErrNoDocuments ∧
      (AuthenticateUser bc client email password).1 =
        httpError ("Unable to authenticate: " ++ GoError.ErrNoDocuments.Error) 401 ∧
      (DeleteUser bc client email password).1 =
        httpError ("Unable to authenticate: " ++ GoError.ErrNoDocuments.Error) 401 ∧
      (DeleteUser bc client email password).2.Users = client.Users) ∧
    (∀ d err, client.Users.find? (emailFilter email) = some d →
      bc.CompareHashAndPassword d.Hash password = some err →
      (AuthenticateUserOnDB bc email password client).1 = some err ∧
      (AuthenticateUser bc client email password).1 =
        httpError ("Unable to authenticate: " ++ err.Error) 401 ∧
      (DeleteUser bc client email password).1 =
        httpError ("Unable to authenticate: " ++ err.Error) 401 ∧
      (DeleteUser bc client email password).2.Users = client.Users) := by
  constructor
  · intro hd
    simp [AuthenticateUser, DeleteUser, hemail, hpassword,
      AuthenticateUserOnDB_absent bc password hf hd]
  · intro d err hd hc
    simp [AuthenticateUser, DeleteUser, hemail, hpassword,
      AuthenticateUserOnDB_mismatch bc password hf hd hc]

/-- C9, amended, on concrete stores: both failures carry status 401 and the message
"Unable to authenticate: " followed by the text of the underlying error. -/
theorem authentication_failure_report_witness :
    (AuthenticateUser exampleBcrypt emptyStore "a@x" "wrong").1 =
      httpError ("Unable to authenticate: " ++ GoError.ErrNoDocuments.Error) 401 ∧
    (AuthenticateUser exampleBcrypt (exampleStore 0 none noFaults) "a@x" "wrong").1 =
      httpError ("Unable to authenticate: " ++ GoError.ErrMismatchedHashAndPassword.Error) 401 :=
  ⟨((authentication_failure_report exampleBcrypt emptyStore "a@x" "wrong" (by decide!) (by decide!)
      rfl).1 rfl).2.1,
   ((authentication_failure_report exampleBcrypt (exampleStore 0 none noFaults) "a@x" "wrong"
      (by decide!) (by decide!) rfl).2 (exampleAccount 0 none) .ErrMismatchedHashAndPassword
      (by decide!) (by decide!)).2.1⟩

/-- C10: a registration whose body carries an email that the store already holds
fails with status 400 and the message "Email already in use." when the existence
lookup succeeds, and never inserts: the documents and the log of writes are as
before, so the original account is unmodified.  When the existence lookup itself
errors, `CheckIfEmailExists` reports `true` together with the error and the
registration performs no insert either (it answers 500). -/
theorem register_duplicate_email (bc : Bcrypt) (client : Mongo) (user : User) :
    ((∃ d ∈ client.Users, d.Email = user.Email) →
      (Register bc client (.ok user)).2.Users = client.Users ∧
      (Register bc client (.ok user)).2.oplog = client.oplog ∧
      (client.faults client.calls = none →
        (CheckIfEmailExists user.Email client).1 = (true, none) ∧
        (Register bc client (.ok user)).1 = httpError "Email already in use." 400)) ∧
    (∀ e, client.faults client.calls = some e →
      (CheckIfEmailExists user.Email client).1 = (true, some (.driver e)) ∧
      (Register bc client (.ok user)).1 =
        httpError ("Error while checking if email already exists. " ++ e) 500 ∧
      (Register bc client (.ok user)).2.Users = client.Users ∧
      (Register bc client (.ok user)).2.oplog = client.oplog) := by
  have hfault : ∀ e, client.faults client.calls = some e →
      CheckIfEmailExists user.Email client = ((true, some (.driver e)), client.next) := by
    intro e he
    simp [CheckIfEmailExists, CountDocuments, he]
  constructor
  · rintro ⟨d, hd, hde⟩
    have hcount : client.Users.countP (emailFilter user.Email) ≠ 0 := by
      have : 0 < client.Users.countP (emailFilter user.Email) :=
        List.countP_pos_iff.mpr ⟨d, hd, by simp [emailFilter, hde]⟩
      omega
    cases hf : client.faults client.calls with
    | some e => simp [Register, hfault e hf]
    | none =>
      have hc : CheckIfEmailExists user.Email client = ((true, none), client.next) := by
        simp [CheckIfEmailExists, CountDocuments, hf, hcount]
      simp [Register, hc]
  · intro e he
    simp [Register, hfault e he, GoError.Error]

/-- C10 on a concrete store: registering with the email `a@x` of an existing account
answers 400 "Email already in use." and leaves the account as it was; with a failing
lookup `CheckIfEmailExists` reports `true` and nothing is inserted. -/
theorem register_duplicate_email_witness :
    ((Register exampleBcrypt (exampleStore 100 none noFaults) (.ok exampleRegistration)).1 =
        ⟨400, .text "Email already in use.\n"⟩ ∧
      (Register exampleBcrypt (exampleStore 100 none noFaults) (.ok exampleRegistration)).2.Users =
        [exampleAccount 100 none]) ∧
    ((CheckIfEmailExists "a@x" (exampleStore 100 none (faultAt 0))).1.1 = true ∧
      (Register exampleBcrypt (exampleStore 100 none (faultAt 0)) (.ok exampleRegistration)).2.Users =
        [exampleAccount 100 none]) := by
  have h := (register_duplicate_email exampleBcrypt (exampleStore 100 none noFaults)
    exampleRegistration).1 ⟨exampleAccount 100 none, by simp [exampleStore], rfl⟩
  have h2 := (register_duplicate_email exampleBcrypt (exampleStore 100 none (faultAt 0))
    exampleRegistration).2 "context deadline exceeded" rfl
  have h3 : (CheckIfEmailExists "a@x" (exampleStore 100 none (faultAt 0))).1.1 = true :=
    congrArg Prod.fst h2.1
  exact ⟨⟨(h.2.2 rfl).2, h.1⟩, h3, h2.2.2.1⟩


/-! ## Duplicate identifiers and the fetch between the debit and the share append -/

/-- Sell on a list with several shares of the requested identifier: the guard reads
the indicator of the last of them, the write goes to the first of them.  When the
last one is open and no driver call fails, the Sell succeeds, the balance is credited
and the first one is marked sold, whatever its indicator was. -/
theorem UpdateShareToSold_duplicates {email : String} (share : Share) {client : Mongo}
    (now : String) {d : UserDoc} {l : List ShareDoc} {last : ShareDoc}
    (hd : client.Users.find? (emailFilter email) = some d)
    (hl : d.Shares = some l)
    (hlast : (l.filter (fun x => x.share.ShareID == share.ShareID)).getLast? = some last)
    (hN : last.share.SoldIndicator = "N")
    (hok : ∀ n, client.faults n = none) :
    (UpdateShareToSold email share client now).1.2 = none ∧
    (UpdateShareToSold email share client now).2.Users =
      replaceFirst (emailFilter email)
        ((d.withBalance (d.Balance + share.PriceSold * Float64.ofInt share.Quantity)).withShares
          (setFirstShare share.ShareID (markSold now share.PriceSold) l))
        client.Users := by
  have hloop : soldIndicatorLoop share.ShareID (l.map ShareDoc.share) = "N" := by
    have hm : (l.map ShareDoc.share).filter (fun x => x.ShareID == share.ShareID) =
        (l.filter (fun x => x.share.ShareID == share.ShareID)).map ShareDoc.share := by
      rw [List.filter_map]
      rfl
    rw [soldIndicatorLoop_eq, hm, List.getLast?_map, hlast]
    simpa using hN
  obtain ⟨r, hr⟩ := UpdateShareToSold_ok share now hd hl hloop hok
  have hp : emailFilter email
      (d.withBalance (d.Balance + share.PriceSold * Float64.ofInt share.Quantity)) = true :=
    emailFilter_of_email (find?_emailFilter_email hd) rfl
  rw [hr]
  exact ⟨rfl, by simp only [Mongo.wrote_Users, Mongo.next_Users,
    replaceFirst_replaceFirst _ _ _ hp]⟩

/-- Buy when the fetch of the user document fails after the debit: the error of the
fetch is returned and the debit stays, no compensating call is made. -/
theorem SaveBaughtShare_fetchFault {email : String} (share : Share) {client : Mongo}
    (objectID now : String) {d : UserDoc} {e : String}
    (hd : client.Users.find? (emailFilter email) = some d)
    (hnlt : ¬ d.Balance < share.PriceBaught * Float64.ofInt share.Quantity)
    (hf0 : client.faults client.calls = none) (hf1 : client.faults (client.calls + 1) = none)
    (hf2 : client.faults (client.calls + 2) = none)
    (hf3 : client.faults (client.calls + 3) = some e) :
    SaveBaughtShare email share client objectID now =
      ((none, some (.driver e)),
        (client.next.next.wrote (emailFilter email)
          (d.withBalance (d.Balance - share.PriceBaught * Float64.ofInt share.Quantity))).next) := by
  have h1 := GetBalance_ok hf0 hd
  have h2 : UpdateBalance client.next email (share.PriceBaught * Float64.ofInt share.Quantity) false true = _ :=
    UpdateBalance_ok _ false true (by simpa using hf1) (by simpa using hf2) (by simpa using hd)
  rw [newBalanceOf_debit] at h2
  have h3 : GetUserData email (client.next.next.wrote (emailFilter email)
      (d.withBalance (d.Balance - share.PriceBaught * Float64.ofInt share.Quantity))) = _ :=
    GetUserData_fault (by simpa using hf3)
  simp only [SaveBaughtShare, h1, hnlt, if_false, h2, h3]

/-- C11 at the failing input: the account holds two shares with the identifier `id1`,
the first already "Y", the second "N".  A Sell of `id1` (quantity 10, price 8)
succeeds and credits 80 (balance 50 becomes 130); the share it rewrites is the first
one, which was already "Y" (its `PriceSold` and `DateSold` are overwritten), and the
open second share stays "N", so the same Sell succeeds again and credits again
(balance 210). -/
theorem sell_resells_sold_duplicate :
    (UpdateShareToSold "a@x" (sellRequest "id1" 10 8)
      (exampleStore 50 (some [exampleLot "id1" "Y", exampleLot "id1" "N"]) noFaults) "t2").1.2 =
      none ∧
    (UpdateShareToSold "a@x" (sellRequest "id1" 10 8)
      (exampleStore 50 (some [exampleLot "id1" "Y", exampleLot "id1" "N"]) noFaults) "t2").2.Users =
      [exampleAccount 130
        (some [markSold "t2" 8 (exampleLot "id1" "Y"), exampleLot "id1" "N"])] ∧
    (UpdateShareToSold "a@x" (sellRequest "id1" 10 8)
      (UpdateShareToSold "a@x" (sellRequest "id1" 10 8)
        (exampleStore 50 (some [exampleLot "id1" "Y", exampleLot "id1" "N"]) noFaults) "t2").2
      "t3").1.2 = none ∧
    (UpdateShareToSold "a@x" (sellRequest "id1" 10 8)
      (UpdateShareToSold "a@x" (sellRequest "id1" 10 8)
        (exampleStore 50 (some [exampleLot "id1" "Y", exampleLot "id1" "N"]) noFaults) "t2").2
      "t3").2.Users.map UserDoc.Balance = [210] := by
  decide!

/-- C12 at the failing input: balance 100, Buy of 10 at price 5, and the fetch of the
user document (the fourth driver call, between the debit and the share append)
fails.  Buy returns that error; the only balance write it attempted, the debit,
succeeded; the balance after the call is 50, not 100, and no share was added. -/
theorem buy_fetch_failure_keeps_debit :
    (SaveBaughtShare "a@x" (buyRequest 10 5) (exampleStore 100 none (faultAt 3)) "id1" "t1").1 =
      (none, some (.driver "context deadline exceeded")) ∧
    (SaveBaughtShare "a@x" (buyRequest 10 5) (exampleStore 100 none (faultAt 3)) "id1" "t1").2.Users =
      [exampleAccount 50 none] ∧
    (SaveBaughtShare "a@x" (buyRequest 10 5) (exampleStore 100 none (faultAt 3)) "id1" "t1").2.oplog =
      [exampleAccount 50 none] ∧
    (SaveBaughtShare "a@x" (buyRequest 10 5) (exampleStore 100 none (faultAt 3)) "id1" "t1").2.calls =
      4 := by
  decide!

end Dbutil
